import Mathlib

/-
Verification of the Game of Life simulation core (gol.py).

The embedding models the source directly:
  - `Point`, `Cell` mirror the namedtuples.
  - Python dicts are modelled as association lists with Python-dict
    assignment semantics (`dinsert` overwrites in place, appends fresh
    keys at the end; `dlookup` finds the unique binding).
  - `align_point`, `num_cell_neighbors`, `check_neighbors`, `compute_life`
    follow the source line by line; the loop bodies of `check_neighbors`
    and `compute_life` are the named step functions `cn_step` / `cl_step`,
    folded over the direction table / the dict values in source order.
  - Python's `%` on integers agrees with `Int.emod` whenever the modulus
    is positive, which is the regime of every theorem below.
-/

/-- An arbitrary point with integer coordinates (namedtuple Point). -/
structure Point where
  x : Int
  y : Int
deriving DecidableEq

/-- An alive cell: a position and a generation number (namedtuple Cell). -/
structure Cell where
  pos : Point
  gen : Nat
deriving DecidableEq

/-- The eight Moore-neighborhood offsets, in source order. -/
def dirs : List (Int × Int) :=
  [(-1,-1), (-1,0), (-1,1), (0,-1), (0,1), (1,-1), (1,0), (1,1)]

/-- Lookup in a Python-dict model (association list). -/
def dlookup {α : Type} : List (Point × α) → Point → Option α
  | [], _ => none
  | (k, v) :: t, q => if q = k then some v else dlookup t q

/-- Membership test (`q in d` in Python). -/
def dictContains {α : Type} (l : List (Point × α)) (q : Point) : Bool :=
  (dlookup l q).isSome

/-- Python-dict assignment `d[k] = v`: overwrite in place, or append. -/
def dinsert {α : Type} : List (Point × α) → Point → α → List (Point × α)
  | [], k, v => [(k, v)]
  | (k', v') :: t, k, v =>
      if k' = k then (k, v) :: t else (k', v') :: dinsert t k v

/-- Source `align_point`: reduce modulo `cols - 1` and `rows - 1`. -/
def align_point (cols rows : Int) (p : Point) : Point :=
  ⟨p.x % (cols - 1), p.y % (rows - 1)⟩

/-- The aligned neighbor of `p` in direction `d` (the `np` of the source). -/
def neighborPoint (cols rows : Int) (p : Point) (d : Int × Int) : Point :=
  align_point cols rows ⟨p.x + d.1, p.y + d.2⟩

/-- Source `num_cell_neighbors`: how many of the 8 aligned neighbors of
`point` are keys of `cells`. -/
def num_cell_neighbors (cols rows : Int) (point : Point)
    (cells : List (Point × Cell)) : Nat :=
  dirs.foldl
    (fun n d =>
      n + (if dictContains cells (neighborPoint cols rows point d) then 1 else 0))
    0

/-- Body of the `for d in dirs` loop of `check_neighbors`.  The accumulator
carries `(n, births, proc)`. -/
def cn_step (cols rows : Int) (cells : List (Point × Cell)) (pos : Point)
    (acc : Nat × List Point × List (Point × Bool)) (d : Int × Int) :
    Nat × List Point × List (Point × Bool) :=
  let np := neighborPoint cols rows pos d
  match dlookup acc.2.2 np with
  | some b => (acc.1 + (if b then 1 else 0), acc.2.1, acc.2.2)
  | none =>
      if dictContains cells np then
        (acc.1 + 1, acc.2.1, dinsert acc.2.2 np true)
      else if num_cell_neighbors cols rows np cells = 3 then
        (acc.1, acc.2.1 ++ [np], dinsert acc.2.2 np false)
      else
        (acc.1, acc.2.1, dinsert acc.2.2 np false)

/-- Source `check_neighbors`: returns `(n, births, proc)`. -/
def check_neighbors (cols rows : Int) (cell : Cell)
    (cells : List (Point × Cell)) (proc : List (Point × Bool)) :
    Nat × List Point × List (Point × Bool) :=
  dirs.foldl (cn_step cols rows cells cell.pos) (0, [], proc)

/-- Body of the `for cell in cells.values()` loop of `compute_life`.
The accumulator carries `(proc, cells_next)`. -/
def cl_step (cols rows : Int) (cells : List (Point × Cell)) (gen : Nat)
    (acc : List (Point × Bool) × List (Point × Cell)) (cell : Cell) :
    List (Point × Bool) × List (Point × Cell) :=
  let r := check_neighbors cols rows cell cells acc.1
  let next1 := if r.1 = 2 ∨ r.1 = 3 then dinsert acc.2 cell.pos cell else acc.2
  let next2 := r.2.1.foldl (fun nx pos => dinsert nx pos ⟨pos, gen + 1⟩) next1
  (r.2.2, next2)

/-- Source `compute_life`: fold the per-cell step over the dict values in
insertion order, starting from an empty cache and an empty result dict. -/
def compute_life (cols rows : Int) (cells : List (Point × Cell)) (gen : Nat) :
    List (Point × Cell) :=
  ((cells.map Prod.snd).foldl (cl_step cols rows cells gen) ([], [])).2

/-- The three-cell horizontal blinker population at generation 0
(cells at (0,0), (1,0), (2,0)). -/
def blinkerPop : List (Point × Cell) :=
  [(⟨0,0⟩, ⟨⟨0,0⟩, 0⟩), (⟨1,0⟩, ⟨⟨1,0⟩, 0⟩), (⟨2,0⟩, ⟨⟨2,0⟩, 0⟩)]

/-! ### Association-list (Python dict) lemmas -/

theorem dlookup_cons {α : Type} (k : Point) (v : α) (t : List (Point × α))
    (q : Point) :
    dlookup ((k, v) :: t) q = if q = k then some v else dlookup t q := rfl

theorem dlookup_dinsert {α : Type} (l : List (Point × α)) (k q : Point)
    (v : α) :
    dlookup (dinsert l k v) q = if q = k then some v else dlookup l q := by
  induction l with
  | nil => simp [dinsert, dlookup]
  | cons hd t ih =>
      obtain ⟨k', v'⟩ := hd
      by_cases hk : k' = k
      · subst hk
        by_cases hq : q = k' <;> simp [dinsert, dlookup, hq]
      · have hk2 : ¬ k = k' := fun h => hk h.symm
        simp only [dinsert, if_neg hk, dlookup_cons, ih]
        by_cases hq : q = k'
        · by_cases hq2 : q = k
          · exact absurd (show k' = k by rw [← hq, hq2]) hk
          · simp [hq, hq2, hk, hk2]
        · by_cases hq2 : q = k <;> simp [hq, hq2, hk, hk2]

theorem dictContains_true_iff {α : Type} (l : List (Point × α)) (q : Point) :
    dictContains l q = true ↔ q ∈ l.map Prod.fst := by
  induction l with
  | nil => simp [dictContains, dlookup]
  | cons hd t ih =>
      obtain ⟨k, v⟩ := hd
      by_cases hq : q = k <;> simp [dictContains, dlookup, hq] at ih ⊢
      exact ih

theorem dictContains_false_iff {α : Type} (l : List (Point × α)) (q : Point) :
    dictContains l q = false ↔ q ∉ l.map Prod.fst := by
  rw [← dictContains_true_iff]
  cases h : dictContains l q <;> simp [h]

theorem keys_dinsert {α : Type} (l : List (Point × α)) (k : Point) (v : α) :
    (dinsert l k v).map Prod.fst =
      if dictContains l k then l.map Prod.fst else l.map Prod.fst ++ [k] := by
  induction l with
  | nil => simp [dinsert, dictContains, dlookup]
  | cons hd t ih =>
      obtain ⟨k', v'⟩ := hd
      by_cases hk : k' = k
      · subst hk
        simp [dinsert, dictContains, dlookup]
      · have hne : ¬ k = k' := fun h => hk h.symm
        have hcons : dictContains ((k', v') :: t) k = dictContains t k := by
          simp [dictContains, dlookup, hne]
        by_cases hc : dictContains t k
        · simp [dinsert, hk, hcons, hc, ih]
        · simp only [Bool.not_eq_true] at hc
          simp [dinsert, hk, hcons, hc, ih]

theorem nodup_keys_dinsert {α : Type} (l : List (Point × α)) (k : Point)
    (v : α) (h : (l.map Prod.fst).Nodup) :
    ((dinsert l k v).map Prod.fst).Nodup := by
  rw [keys_dinsert]
  by_cases hc : dictContains l k
  · simpa [hc] using h
  · have hc' : dictContains l k = false := by simpa using hc
    have hk : k ∉ l.map Prod.fst := (dictContains_false_iff l k).mp hc'
    rw [if_neg hc, List.nodup_append]
    refine ⟨h, List.nodup_singleton _, ?_⟩
    intro x hx hx2
    simp only [List.mem_singleton] at hx2
    subst hx2
    exact hk hx

theorem mem_dinsert {α : Type} (l : List (Point × α)) (k : Point) (v : α)
    (kv : Point × α) (h : kv ∈ dinsert l k v) : kv = (k, v) ∨ kv ∈ l := by
  induction l with
  | nil => simpa [dinsert] using h
  | cons hd t ih =>
      obtain ⟨k', v'⟩ := hd
      by_cases hk : k' = k
      · subst hk
        simp [dinsert] at h
        rcases h with h | h
        · exact Or.inl h
        · exact Or.inr (List.mem_cons_of_mem _ h)
      · simp only [dinsert, if_neg hk, List.mem_cons] at h
        rcases h with h | h
        · exact Or.inr (h ▸ List.mem_cons_self _ _)
        · rcases ih h with h' | h'
          · exact Or.inl h'
          · exact Or.inr (List.mem_cons_of_mem _ h')

theorem dlookup_eq_some_of_mem {α : Type} (l : List (Point × α)) (k : Point)
    (c : α) (hnd : (l.map Prod.fst).Nodup) (h : (k, c) ∈ l) :
    dlookup l k = some c := by
  induction l with
  | nil => simp at h
  | cons hd t ih =>
      obtain ⟨k', v'⟩ := hd
      simp only [List.mem_cons] at h
      simp only [List.map_cons, List.nodup_cons] at hnd
      rcases h with h | h
      · cases h
        simp [dlookup]
      · have hk : k ≠ k' := by
          intro hkk
          subst hkk
          exact hnd.1 (List.mem_map_of_mem Prod.fst h)
        simp [dlookup, hk, ih hnd.2 h]

theorem mem_of_dlookup_eq_some {α : Type} (l : List (Point × α)) (k : Point)
    (c : α) (h : dlookup l k = some c) : (k, c) ∈ l := by
  induction l with
  | nil => simp [dlookup] at h
  | cons hd t ih =>
      obtain ⟨k', v'⟩ := hd
      by_cases hk : k = k'
      · subst hk
        rw [dlookup_cons, if_pos rfl] at h
        injection h with h
        subst h
        exact List.mem_cons_self _ _
      · rw [dlookup_cons, if_neg hk] at h
        exact List.mem_cons_of_mem _ (ih h)

theorem dlookup_perm {α : Type} (l1 l2 : List (Point × α))
    (hp : l1.Perm l2) (hnd : (l1.map Prod.fst).Nodup) (k : Point) :
    dlookup l1 k = dlookup l2 k := by
  have hnd2 : (l2.map Prod.fst).Nodup := ((hp.map Prod.fst).nodup_iff).mp hnd
  cases h : dlookup l1 k with
  | some c =>
      exact (dlookup_eq_some_of_mem l2 k c hnd2
        (hp.mem_iff.mp (mem_of_dlookup_eq_some l1 k c h))).symm
  | none =>
      cases h2 : dlookup l2 k with
      | none => rfl
      | some c =>
          exfalso
          have hm : (k, c) ∈ l1 := hp.mem_iff.mpr (mem_of_dlookup_eq_some l2 k c h2)
          rw [dlookup_eq_some_of_mem l1 k c hnd hm] at h
          exact Option.noConfusion h

/-! ### Modulo and alignment lemmas -/

theorem emod_add_self (a m : Int) : (a + m) % m = a % m := by
  have h : a + m = a + m * 1 := by ring
  rw [h]
  exact Int.add_mul_emod_self_left a m 1

theorem emod_neg_small (a m : Int) (h1 : -m ≤ a) (h2 : a < 0) :
    a % m = a + m := by
  rw [← emod_add_self a m]
  exact Int.emod_eq_of_lt (by omega) (by omega)

theorem align_point_idem (cols rows : Int) (p : Point) :
    align_point cols rows (align_point cols rows p) = align_point cols rows p := by
  simp [align_point, Int.emod_emod_of_dvd _ dvd_rfl]

theorem neighborPoint_align (cols rows : Int) (p : Point) (d : Int × Int) :
    neighborPoint cols rows (align_point cols rows p) d =
      neighborPoint cols rows p d := by
  simp only [neighborPoint, align_point]
  have hx : (p.x % (cols - 1) + d.1) % (cols - 1) = (p.x + d.1) % (cols - 1) := by
    rw [Int.add_emod, Int.emod_emod_of_dvd _ dvd_rfl, ← Int.add_emod]
  have hy : (p.y % (rows - 1) + d.2) % (rows - 1) = (p.y + d.2) % (rows - 1) := by
    rw [Int.add_emod, Int.emod_emod_of_dvd _ dvd_rfl, ← Int.add_emod]
  rw [Point.mk.injEq]
  exact ⟨hx, hy⟩

theorem align_point_range (cols rows : Int) (p : Point) (hc : 2 ≤ cols)
    (hr : 2 ≤ rows) :
    0 ≤ (align_point cols rows p).x ∧ (align_point cols rows p).x < cols - 1 ∧
    0 ≤ (align_point cols rows p).y ∧ (align_point cols rows p).y < rows - 1 := by
  have hc1 : (0 : Int) < cols - 1 := by omega
  have hr1 : (0 : Int) < rows - 1 := by omega
  exact ⟨Int.emod_nonneg _ (by omega), Int.emod_lt_of_pos _ hc1,
    Int.emod_nonneg _ (by omega), Int.emod_lt_of_pos _ hr1⟩

/-! ### Counting lemmas -/

theorem foldl_add_count {α : Type} (l : List α) (f : α → Bool) (n : Nat) :
    l.foldl (fun n d => n + (if f d then 1 else 0)) n = n + l.countP f := by
  induction l generalizing n with
  | nil => simp
  | cons hd t ih =>
      simp only [List.foldl_cons, List.countP_cons, ih]
      by_cases h : f hd <;> simp [h] <;> omega

theorem num_cell_neighbors_eq_countP (cols rows : Int) (p : Point)
    (cells : List (Point × Cell)) :
    num_cell_neighbors cols rows p cells =
      dirs.countP (fun d => dictContains cells (neighborPoint cols rows p d)) := by
  simpa [num_cell_neighbors] using
    foldl_add_count dirs (fun d => dictContains cells (neighborPoint cols rows p d)) 0

/-! ### The neighbor-status cache invariant -/

/-- The cache invariant: keys are distinct, and every cached boolean
records whether its position is a key of the (unchanging) input
population. -/
def procOK (cells : List (Point × Cell)) (proc : List (Point × Bool)) : Prop :=
  (proc.map Prod.fst).Nodup ∧ ∀ kv ∈ proc, kv.2 = dictContains cells kv.1

theorem dictContains_dinsert_true_iff {α : Type} (l : List (Point × α))
    (k q : Point) (v : α) :
    dictContains (dinsert l k v) q = true ↔ (q = k ∨ dictContains l q = true) := by
  by_cases hq : q = k <;> simp [dictContains, dlookup_dinsert, hq]

theorem dictContains_dinsert_false_iff {α : Type} (l : List (Point × α))
    (k q : Point) (v : α) :
    dictContains (dinsert l k v) q = false ↔
      (¬ q = k ∧ dictContains l q = false) := by
  by_cases hq : q = k <;> simp [dictContains, dlookup_dinsert, hq]

theorem procOK_dinsert (cells : List (Point × Cell))
    (proc : List (Point × Bool)) (np : Point) (b : Bool)
    (hok : procOK cells proc) (hb : b = dictContains cells np) :
    procOK cells (dinsert proc np b) := by
  refine ⟨nodup_keys_dinsert _ _ _ hok.1, ?_⟩
  intro kv hkv
  rcases mem_dinsert _ _ _ _ hkv with h | h
  · subst h
    simpa using hb
  · exact hok.2 kv h

/-! ### Branch equations for `cn_step` -/

theorem cn_step_cached (cols rows : Int) (cells : List (Point × Cell))
    (pos : Point) (n : Nat) (births : List Point) (proc : List (Point × Bool))
    (d : Int × Int) (b : Bool)
    (hl : dlookup proc (neighborPoint cols rows pos d) = some b) :
    cn_step cols rows cells pos (n, births, proc) d =
      (n + (if b then 1 else 0), births, proc) := by
  simp [cn_step, hl]

theorem cn_step_occupied (cols rows : Int) (cells : List (Point × Cell))
    (pos : Point) (n : Nat) (births : List Point) (proc : List (Point × Bool))
    (d : Int × Int)
    (hl : dlookup proc (neighborPoint cols rows pos d) = none)
    (hc : dictContains cells (neighborPoint cols rows pos d) = true) :
    cn_step cols rows cells pos (n, births, proc) d =
      (n + 1, births, dinsert proc (neighborPoint cols rows pos d) true) := by
  simp [cn_step, hl, hc]

theorem cn_step_birth (cols rows : Int) (cells : List (Point × Cell))
    (pos : Point) (n : Nat) (births : List Point) (proc : List (Point × Bool))
    (d : Int × Int)
    (hl : dlookup proc (neighborPoint cols rows pos d) = none)
    (hc : dictContains cells (neighborPoint cols rows pos d) = false)
    (h3 : num_cell_neighbors cols rows (neighborPoint cols rows pos d) cells = 3) :
    cn_step cols rows cells pos (n, births, proc) d =
      (n, births ++ [neighborPoint cols rows pos d],
        dinsert proc (neighborPoint cols rows pos d) false) := by
  simp [cn_step, hl, hc, h3]

theorem cn_step_dead (cols rows : Int) (cells : List (Point × Cell))
    (pos : Point) (n : Nat) (births : List Point) (proc : List (Point × Bool))
    (d : Int × Int)
    (hl : dlookup proc (neighborPoint cols rows pos d) = none)
    (hc : dictContains cells (neighborPoint cols rows pos d) = false)
    (h3 : num_cell_neighbors cols rows (neighborPoint cols rows pos d) cells ≠ 3) :
    cn_step cols rows cells pos (n, births, proc) d =
      (n, births, dinsert proc (neighborPoint cols rows pos d) false) := by
  simp [cn_step, hl, hc, h3]

/-! ### Cheap unfolding equations -/

theorem check_neighbors_eq (cols rows : Int) (cells : List (Point × Cell))
    (c : Cell) (proc : List (Point × Bool)) :
    check_neighbors cols rows c cells proc =
      dirs.foldl (cn_step cols rows cells c.pos) (0, [], proc) := by
  simp only [check_neighbors]

theorem cl_step_fst (cols rows : Int) (cells : List (Point × Cell)) (gen : Nat)
    (st : List (Point × Bool) × List (Point × Cell)) (c : Cell) :
    (cl_step cols rows cells gen st c).1 =
      (check_neighbors cols rows c cells st.1).2.2 := by
  simp only [cl_step]

theorem cl_step_snd (cols rows : Int) (cells : List (Point × Cell)) (gen : Nat)
    (st : List (Point × Bool) × List (Point × Cell)) (c : Cell) :
    (cl_step cols rows cells gen st c).2 =
      (check_neighbors cols rows c cells st.1).2.1.foldl
        (fun nx pos => dinsert nx pos ⟨pos, gen + 1⟩)
        (if (check_neighbors cols rows c cells st.1).1 = 2 ∨
            (check_neighbors cols rows c cells st.1).1 = 3 then
          dinsert st.2 c.pos c
        else st.2) := by
  simp only [cl_step]

/-! ### Characterization of the `check_neighbors` fold -/

theorem cn_fold_spec (cols rows : Int) (cells : List (Point × Cell))
    (pos : Point) (ds : List (Int × Int)) :
    ∀ (n : Nat) (births : List Point) (proc : List (Point × Bool)),
      procOK cells proc →
      (ds.foldl (cn_step cols rows cells pos) (n, births, proc)).1 =
          n + ds.countP (fun d => dictContains cells (neighborPoint cols rows pos d)) ∧
      procOK cells (ds.foldl (cn_step cols rows cells pos) (n, births, proc)).2.2 ∧
      (∀ p, dictContains
            (ds.foldl (cn_step cols rows cells pos) (n, births, proc)).2.2 p = true ↔
          (dictContains proc p = true ∨ ∃ d ∈ ds, neighborPoint cols rows pos d = p)) ∧
      (∀ p b, dlookup proc p = some b →
          dlookup (ds.foldl (cn_step cols rows cells pos) (n, births, proc)).2.2 p
            = some b) ∧
      (∀ q, q ∈ (ds.foldl (cn_step cols rows cells pos) (n, births, proc)).2.1 ↔
          (q ∈ births ∨ ((∃ d ∈ ds, neighborPoint cols rows pos d = q) ∧
            dictContains proc q = false ∧ dictContains cells q = false ∧
            num_cell_neighbors cols rows q cells = 3))) := by
  induction ds with
  | nil =>
      intro n births proc hok
      simp [hok]
  | cons d ds ih =>
      intro n births proc hok
      rcases hl : dlookup proc (neighborPoint cols rows pos d) with _ | b
      · -- the neighbor point is fresh; three sub-branches
        have hfresh : dictContains proc (neighborPoint cols rows pos d) = false := by
          simp [dictContains, hl]
        by_cases hc : dictContains cells (neighborPoint cols rows pos d) = true
        · -- fresh and occupied
          have hok' : procOK cells (dinsert proc (neighborPoint cols rows pos d) true) :=
            procOK_dinsert _ _ _ _ hok hc.symm
          rcases ih (n + 1) births _ hok' with ⟨ih1, ih2, ih3, ih4, ih5⟩
          rw [List.foldl_cons, cn_step_occupied cols rows cells pos n births proc d hl hc]
          refine ⟨?_, ih2, ?_, ?_, ?_⟩
          · rw [ih1, List.countP_cons]
            simp [hc]
            omega
          · intro p
            rw [ih3 p, dictContains_dinsert_true_iff, List.exists_mem_cons_iff]
            have hsymm : (neighborPoint cols rows pos d = p) ↔
                p = neighborPoint cols rows pos d := eq_comm
            tauto
          · intro p b hp
            have hne : ¬ p = neighborPoint cols rows pos d := by
              intro h
              rw [h, hl] at hp
              exact Option.noConfusion hp
            exact ih4 p b (by rw [dlookup_dinsert, if_neg hne]; exact hp)
          · intro q
            rw [ih5 q, List.exists_mem_cons_iff]
            simp only [dictContains_dinsert_false_iff]
            by_cases hq : q = neighborPoint cols rows pos d
            · subst hq
              simp [hc]
            · have hsymm : (neighborPoint cols rows pos d = q) ↔
                  q = neighborPoint cols rows pos d := eq_comm
              tauto
        · -- fresh and unoccupied
          have hc' : dictContains cells (neighborPoint cols rows pos d) = false := by
            cases h : dictContains cells (neighborPoint cols rows pos d)
            · rfl
            · exact absurd h hc
          have hok' : procOK cells (dinsert proc (neighborPoint cols rows pos d) false) :=
            procOK_dinsert _ _ _ _ hok hc'.symm
          by_cases h3 : num_cell_neighbors cols rows (neighborPoint cols rows pos d) cells = 3
          · -- birth candidate
            rcases ih n (births ++ [neighborPoint cols rows pos d]) _ hok' with
              ⟨ih1, ih2, ih3, ih4, ih5⟩
            rw [List.foldl_cons, cn_step_birth cols rows cells pos n births proc d hl hc' h3]
            refine ⟨?_, ih2, ?_, ?_, ?_⟩
            · rw [ih1, List.countP_cons]
              simp [hc']
            · intro p
              rw [ih3 p, dictContains_dinsert_true_iff, List.exists_mem_cons_iff]
              have hsymm : (neighborPoint cols rows pos d = p) ↔
                  p = neighborPoint cols rows pos d := eq_comm
              tauto
            · intro p b hp
              have hne : ¬ p = neighborPoint cols rows pos d := by
                intro h
                rw [h, hl] at hp
                exact Option.noConfusion hp
              exact ih4 p b (by rw [dlookup_dinsert, if_neg hne]; exact hp)
            · intro q
              rw [ih5 q, List.exists_mem_cons_iff]
              simp only [dictContains_dinsert_false_iff, List.mem_append,
                List.mem_singleton]
              by_cases hq : q = neighborPoint cols rows pos d
              · subst hq
                simp [hfresh, hc', h3]
              · have hsymm : (neighborPoint cols rows pos d = q) ↔
                    q = neighborPoint cols rows pos d := eq_comm
                tauto
          · -- dead point, no birth
            rcases ih n births _ hok' with ⟨ih1, ih2, ih3, ih4, ih5⟩
            rw [List.foldl_cons, cn_step_dead cols rows cells pos n births proc d hl hc' h3]
            refine ⟨?_, ih2, ?_, ?_, ?_⟩
            · rw [ih1, List.countP_cons]
              simp [hc']
            · intro p
              rw [ih3 p, dictContains_dinsert_true_iff, List.exists_mem_cons_iff]
              have hsymm : (neighborPoint cols rows pos d = p) ↔
                  p = neighborPoint cols rows pos d := eq_comm
              tauto
            · intro p b hp
              have hne : ¬ p = neighborPoint cols rows pos d := by
                intro h
                rw [h, hl] at hp
                exact Option.noConfusion hp
              exact ih4 p b (by rw [dlookup_dinsert, if_neg hne]; exact hp)
            · intro q
              rw [ih5 q, List.exists_mem_cons_iff]
              simp only [dictContains_dinsert_false_iff]
              by_cases hq : q = neighborPoint cols rows pos d
              · subst hq
                simp [h3]
              · have hsymm : (neighborPoint cols rows pos d = q) ↔
                    q = neighborPoint cols rows pos d := eq_comm
                tauto
      · -- cached
        have hb : b = dictContains cells (neighborPoint cols rows pos d) := by
          have := hok.2 _ (mem_of_dlookup_eq_some _ _ _ hl)
          simpa using this
        have hnp : dictContains proc (neighborPoint cols rows pos d) = true := by
          simp [dictContains, hl]
        rcases ih (n + (if b then 1 else 0)) births proc hok with
          ⟨ih1, ih2, ih3, ih4, ih5⟩
        rw [List.foldl_cons, cn_step_cached cols rows cells pos n births proc d b hl]
        refine ⟨?_, ih2, ?_, ih4, ?_⟩
        · rw [ih1, List.countP_cons, ← hb]
          cases b <;> simp <;> omega
        · intro p
          rw [ih3 p, List.exists_mem_cons_iff]
          by_cases hp : p = neighborPoint cols rows pos d
          · subst hp
            simp [hnp]
          · have hsymm : (neighborPoint cols rows pos d = p) ↔
                p = neighborPoint cols rows pos d := eq_comm
            tauto
        · intro q
          rw [ih5 q, List.exists_mem_cons_iff]
          by_cases hq : q = neighborPoint cols rows pos d
          · subst hq
            simp [hnp]
          · have hsymm : (neighborPoint cols rows pos d = q) ↔
                q = neighborPoint cols rows pos d := eq_comm
            tauto

/-! ### The per-generation invariant of the `compute_life` fold -/

/-- `p` is an aligned Moore-neighbor of (the position of) one of the cells
in `cs`. -/
def nbhdP (cols rows : Int) (cs : List Cell) (p : Point) : Prop :=
  ∃ c ∈ cs, ∃ d ∈ dirs, neighborPoint cols rows c.pos d = p

theorem nbhdP_append_singleton (cols rows : Int) (cs : List Cell) (c : Cell)
    (p : Point) :
    nbhdP cols rows (cs ++ [c]) p ↔
      (nbhdP cols rows cs p ∨ ∃ d ∈ dirs, neighborPoint cols rows c.pos d = p) := by
  simp only [nbhdP, List.mem_append, List.mem_singleton, or_and_right, exists_or,
    exists_eq_left]

theorem nbhdP_nil (cols rows : Int) (p : Point) :
    ¬ nbhdP cols rows [] p := by
  rintro ⟨c, hc, -⟩
  simp at hc

/-- The invariant carried through the `compute_life` loop: after the cells
in `cs` have been processed, the cache `st.1` holds exactly the aligned
neighborhood of `cs` with correct occupancy booleans, and the result dict
`st.2` holds exactly the survivors among `cs` and the births proposed so
far. -/
def midInv (cols rows : Int) (cells : List (Point × Cell)) (gen : Nat)
    (cs : List Cell) (st : List (Point × Bool) × List (Point × Cell)) : Prop :=
  procOK cells st.1 ∧
  (∀ p, dictContains st.1 p = true ↔ nbhdP cols rows cs p) ∧
  (∀ p c, dlookup st.2 p = some c ↔
    ((c ∈ cs ∧ dlookup cells p = some c ∧
      (num_cell_neighbors cols rows p cells = 2 ∨
       num_cell_neighbors cols rows p cells = 3)) ∨
     (dictContains cells p = false ∧ nbhdP cols rows cs p ∧
      num_cell_neighbors cols rows p cells = 3 ∧ c = ⟨p, gen + 1⟩)))

theorem bool_eq_false_iff_not (b : Bool) : b = false ↔ ¬ b = true := by
  cases b <;> simp

theorem births_fold_lookup (gen : Nat) (bs : List Point) :
    ∀ (l : List (Point × Cell)) (q : Point),
      dlookup (bs.foldl (fun nx pos => dinsert nx pos ⟨pos, gen + 1⟩) l) q =
        if q ∈ bs then some ⟨q, gen + 1⟩ else dlookup l q := by
  induction bs with
  | nil => intro l q; simp
  | cons b bs ih =>
      intro l q
      rw [List.foldl_cons, ih]
      by_cases hq : q ∈ bs
      · simp [hq, List.mem_cons]
      · by_cases hqb : q = b
        · subst hqb
          simp [hq, dlookup_dinsert]
        · simp [hq, hqb, dlookup_dinsert]

set_option maxHeartbeats 1600000 in
theorem cl_step_midInv (cols rows : Int) (cells : List (Point × Cell))
    (gen : Nat) (cs : List Cell) (st : List (Point × Bool) × List (Point × Cell))
    (c : Cell)
    (hkv : ∀ kv ∈ cells, (kv.2).pos = kv.1)
    (hnd : (cells.map Prod.fst).Nodup)
    (hcmem : ∃ k, (k, c) ∈ cells)
    (hinv : midInv cols rows cells gen cs st) :
    midInv cols rows cells gen (cs ++ [c]) (cl_step cols rows cells gen st c) := by
  obtain ⟨hok, hproc, hnext⟩ := hinv
  rcases cn_fold_spec cols rows cells c.pos dirs 0 [] st.1 hok with ⟨h1, h2, h3, h4, h5⟩
  have hn : (dirs.foldl (cn_step cols rows cells c.pos) (0, [], st.1)).1 =
      num_cell_neighbors cols rows c.pos cells := by
    rw [h1, num_cell_neighbors_eq_countP]
    exact Nat.zero_add _
  have hlc : dlookup cells c.pos = some c := by
    obtain ⟨k, hk⟩ := hcmem
    have hpos := hkv (k, c) hk
    simp only at hpos
    rw [hpos]
    exact dlookup_eq_some_of_mem cells k c hnd hk
  have hcc : dictContains cells c.pos = true := by simp [dictContains, hlc]
  have hprocF : ∀ p, dictContains st.1 p = false ↔ ¬ nbhdP cols rows cs p := by
    intro p
    rw [bool_eq_false_iff_not, hproc p]
  have hbirth : ∀ q,
      q ∈ (dirs.foldl (cn_step cols rows cells c.pos) (0, [], st.1)).2.1 ↔
        ((∃ d ∈ dirs, neighborPoint cols rows c.pos d = q) ∧
          ¬ nbhdP cols rows cs q ∧ dictContains cells q = false ∧
          num_cell_neighbors cols rows q cells = 3) := by
    intro q
    constructor
    · intro h
      rcases (h5 q).mp h with h | ⟨he, hf, hcf, h3n⟩
      · exact absurd h (List.not_mem_nil q)
      · exact ⟨he, (hprocF q).mp hf, hcf, h3n⟩
    · rintro ⟨he, hnbh, hcf, h3n⟩
      exact (h5 q).mpr (Or.inr ⟨he, (hprocF q).mpr hnbh, hcf, h3n⟩)
  have hst1 : (cl_step cols rows cells gen st c).1 =
      (dirs.foldl (cn_step cols rows cells c.pos) (0, [], st.1)).2.2 := by
    rw [cl_step_fst, check_neighbors_eq]
  have hst2 : (cl_step cols rows cells gen st c).2 =
      (dirs.foldl (cn_step cols rows cells c.pos) (0, [], st.1)).2.1.foldl
        (fun nx pos => dinsert nx pos ⟨pos, gen + 1⟩)
        (if (dirs.foldl (cn_step cols rows cells c.pos) (0, [], st.1)).1 = 2 ∨
            (dirs.foldl (cn_step cols rows cells c.pos) (0, [], st.1)).1 = 3 then
          dinsert st.2 c.pos c
        else st.2) := by
    rw [cl_step_snd, check_neighbors_eq]
  refine ⟨?_, ?_, ?_⟩
  · rw [hst1]
    exact h2
  · intro p
    rw [hst1, h3 p, hproc p, nbhdP_append_singleton]
  · intro p c'
    rw [hst2, births_fold_lookup]
    by_cases hb : p ∈ (dirs.foldl (cn_step cols rows cells c.pos) (0, [], st.1)).2.1
    · rw [if_pos hb]
      obtain ⟨⟨d, hd, hnp⟩, hnb, hcf, h3n⟩ := (hbirth p).mp hb
      constructor
      · intro h
        injection h with h
        refine Or.inr ⟨hcf, ?_, h3n, h.symm⟩
        rw [nbhdP_append_singleton]
        exact Or.inr ⟨d, hd, hnp⟩
      · rintro (⟨hmem, hlk, hcnt⟩ | ⟨-, -, -, hc'⟩)
        · exfalso
          have hcp : dictContains cells p = true := by simp [dictContains, hlk]
          rw [hcf] at hcp
          exact Bool.noConfusion hcp
        · rw [hc']
    · rw [if_neg hb]
      by_cases hs : (dirs.foldl (cn_step cols rows cells c.pos) (0, [], st.1)).1 = 2 ∨
          (dirs.foldl (cn_step cols rows cells c.pos) (0, [], st.1)).1 = 3
      · rw [if_pos hs, dlookup_dinsert]
        by_cases hp : p = c.pos
        · rw [if_pos hp]
          subst hp
          constructor
          · intro h
            injection h with h
            subst h
            refine Or.inl ⟨List.mem_append.mpr (Or.inr (List.mem_singleton.mpr rfl)),
              hlc, ?_⟩
            rw [hn] at hs
            exact hs
          · rintro (⟨hmem, hlk, hcnt⟩ | ⟨hcf, -, -, -⟩)
            · rw [hlc] at hlk
              injection hlk with hlk
              rw [hlk]
            · exfalso
              rw [hcc] at hcf
              exact Bool.noConfusion hcf
        · rw [if_neg hp, hnext p c']
          constructor
          · rintro (⟨hmem, hlk, hcnt⟩ | ⟨hcf, hnb', h3n, hc'⟩)
            · exact Or.inl ⟨List.mem_append.mpr (Or.inl hmem), hlk, hcnt⟩
            · exact Or.inr ⟨hcf,
                (nbhdP_append_singleton _ _ _ _ _).mpr (Or.inl hnb'), h3n, hc'⟩
          · rintro (⟨hmem, hlk, hcnt⟩ | ⟨hcf, hnb', h3n, hc'⟩)
            · rcases List.mem_append.mp hmem with hm | hm
              · exact Or.inl ⟨hm, hlk, hcnt⟩
              · exfalso
                rw [List.mem_singleton] at hm
                subst hm
                have hcp := hkv (p, c') (mem_of_dlookup_eq_some cells p c' hlk)
                simp only at hcp
                exact hp hcp.symm
            · by_cases hcs : nbhdP cols rows cs p
              · exact Or.inr ⟨hcf, hcs, h3n, hc'⟩
              · rcases (nbhdP_append_singleton _ _ _ _ _).mp hnb' with hm | hm
                · exact absurd hm hcs
                · exact absurd ((hbirth p).mpr ⟨hm, hcs, hcf, h3n⟩) hb
      · rw [if_neg hs, hnext p c']
        constructor
        · rintro (⟨hmem, hlk, hcnt⟩ | ⟨hcf, hnb', h3n, hc'⟩)
          · exact Or.inl ⟨List.mem_append.mpr (Or.inl hmem), hlk, hcnt⟩
          · exact Or.inr ⟨hcf,
              (nbhdP_append_singleton _ _ _ _ _).mpr (Or.inl hnb'), h3n, hc'⟩
        · rintro (⟨hmem, hlk, hcnt⟩ | ⟨hcf, hnb', h3n, hc'⟩)
          · rcases List.mem_append.mp hmem with hm | hm
            · exact Or.inl ⟨hm, hlk, hcnt⟩
            · exfalso
              rw [List.mem_singleton] at hm
              subst hm
              have hcp := hkv (p, c') (mem_of_dlookup_eq_some cells p c' hlk)
              simp only at hcp
              rw [← hcp] at hcnt
              rw [hn] at hs
              exact hs hcnt
          · by_cases hcs : nbhdP cols rows cs p
            · exact Or.inr ⟨hcf, hcs, h3n, hc'⟩
            · rcases (nbhdP_append_singleton _ _ _ _ _).mp hnb' with hm | hm
              · exact absurd hm hcs
              · exact absurd ((hbirth p).mpr ⟨hm, hcs, hcf, h3n⟩) hb

theorem midInv_init (cols rows : Int) (cells : List (Point × Cell)) (gen : Nat) :
    midInv cols rows cells gen [] ([], []) := by
  refine ⟨⟨List.nodup_nil, ?_⟩, ?_, ?_⟩
  · intro kv hkv
    exact absurd hkv (List.not_mem_nil kv)
  · intro p
    constructor
    · intro h
      simp [dictContains, dlookup] at h
    · intro h
      exact absurd h (nbhdP_nil cols rows p)
  · intro p c
    constructor
    · intro h
      simp [dlookup] at h
    · rintro (⟨h, -, -⟩ | ⟨-, h, -, -⟩)
      · exact absurd h (List.not_mem_nil c)
      · exact absurd h (nbhdP_nil cols rows p)

theorem midInv_fold (cols rows : Int) (cells : List (Point × Cell)) (gen : Nat)
    (hkv : ∀ kv ∈ cells, (kv.2).pos = kv.1)
    (hnd : (cells.map Prod.fst).Nodup) :
    ∀ (rest cs : List Cell) (st : List (Point × Bool) × List (Point × Cell)),
      (∀ c ∈ rest, ∃ k, (k, c) ∈ cells) →
      midInv cols rows cells gen cs st →
      midInv cols rows cells gen (cs ++ rest)
        (rest.foldl (cl_step cols rows cells gen) st) := by
  intro rest
  induction rest with
  | nil =>
      intro cs st _ hinv
      simpa using hinv
  | cons c rest ih =>
      intro cs st hmem hinv
      rw [List.foldl_cons]
      have h1 := cl_step_midInv cols rows cells gen cs st c hkv hnd
        (hmem c (List.mem_cons_self c rest)) hinv
      have h2 := ih (cs ++ [c]) _
        (fun c' hc' => hmem c' (List.mem_cons_of_mem c hc')) h1
      simpa [List.append_assoc] using h2

/-- The central characterization: the output dict of `compute_life` maps
`p` to `c` exactly when either `c` is the input cell at `p` and `p` has 2
or 3 occupied neighbors, or `p` is a dead point of the aligned
neighborhood of the living cells with exactly 3 occupied neighbors and
`c` is the newborn cell of the next generation. -/
theorem compute_life_lookup (cols rows : Int) (cells : List (Point × Cell))
    (gen : Nat)
    (hkv : ∀ kv ∈ cells, (kv.2).pos = kv.1)
    (hnd : (cells.map Prod.fst).Nodup) (p : Point) (c : Cell) :
    dlookup (compute_life cols rows cells gen) p = some c ↔
      ((dlookup cells p = some c ∧
        (num_cell_neighbors cols rows p cells = 2 ∨
         num_cell_neighbors cols rows p cells = 3)) ∨
       (dictContains cells p = false ∧
        nbhdP cols rows (cells.map Prod.snd) p ∧
        num_cell_neighbors cols rows p cells = 3 ∧ c = ⟨p, gen + 1⟩)) := by
  have hmem : ∀ c' ∈ cells.map Prod.snd, ∃ k, (k, c') ∈ cells := by
    intro c' hc'
    rcases List.mem_map.mp hc' with ⟨kv, hkv', he⟩
    obtain ⟨k, v⟩ := kv
    cases he
    exact ⟨k, hkv'⟩
  have h := midInv_fold cols rows cells gen hkv hnd (cells.map Prod.snd) []
    ([], []) hmem (midInv_init cols rows cells gen)
  simp only [List.nil_append] at h
  have h3 := h.2.2 p c
  constructor
  · intro hh
    rcases h3.mp hh with ⟨-, hlk, hcnt⟩ | hbb
    · exact Or.inl ⟨hlk, hcnt⟩
    · exact Or.inr hbb
  · rintro (⟨hlk, hcnt⟩ | hbb)
    · refine h3.mpr (Or.inl ⟨?_, hlk, hcnt⟩)
      exact List.mem_map_of_mem Prod.snd (mem_of_dlookup_eq_some cells p c hlk)
    · exact h3.mpr (Or.inr hbb)

/-! ### Well-formedness of the output population -/

theorem births_fold_wf (gen : Nat) (bs : List Point) :
    ∀ (l : List (Point × Cell)),
      ((∀ kv ∈ l, (kv.2).pos = kv.1) ∧ (l.map Prod.fst).Nodup) →
      ((∀ kv ∈ bs.foldl (fun nx pos => dinsert nx pos ⟨pos, gen + 1⟩) l,
          (kv.2).pos = kv.1) ∧
       ((bs.foldl (fun nx pos => dinsert nx pos ⟨pos, gen + 1⟩) l).map
          Prod.fst).Nodup) := by
  induction bs with
  | nil =>
      intro l h
      simpa using h
  | cons b bs ih =>
      intro l h
      rw [List.foldl_cons]
      refine ih _ ⟨?_, nodup_keys_dinsert _ _ _ h.2⟩
      intro kv hkv
      rcases mem_dinsert _ _ _ _ hkv with he | he
      · subst he
        rfl
      · exact h.1 kv he

theorem cl_fold_next_wf (cols rows : Int) (cells : List (Point × Cell))
    (gen : Nat) :
    ∀ (cs : List Cell) (st : List (Point × Bool) × List (Point × Cell)),
      ((∀ kv ∈ st.2, (kv.2).pos = kv.1) ∧ (st.2.map Prod.fst).Nodup) →
      ((∀ kv ∈ (cs.foldl (cl_step cols rows cells gen) st).2,
          (kv.2).pos = kv.1) ∧
       (((cs.foldl (cl_step cols rows cells gen) st).2).map Prod.fst).Nodup) := by
  intro cs
  induction cs with
  | nil =>
      intro st h
      simpa using h
  | cons c cs ih =>
      intro st h
      rw [List.foldl_cons]
      refine ih _ ?_
      have hst2 : (cl_step cols rows cells gen st c).2 =
          (dirs.foldl (cn_step cols rows cells c.pos) (0, [], st.1)).2.1.foldl
            (fun nx pos => dinsert nx pos ⟨pos, gen + 1⟩)
            (if (dirs.foldl (cn_step cols rows cells c.pos) (0, [], st.1)).1 = 2 ∨
                (dirs.foldl (cn_step cols rows cells c.pos) (0, [], st.1)).1 = 3 then
              dinsert st.2 c.pos c
            else st.2) := by
        rw [cl_step_snd, check_neighbors_eq]
      rw [hst2]
      refine births_fold_wf gen _ _ ?_
      by_cases hr : (dirs.foldl (cn_step cols rows cells c.pos) (0, [], st.1)).1 = 2 ∨
          (dirs.foldl (cn_step cols rows cells c.pos) (0, [], st.1)).1 = 3
      · rw [if_pos hr]
        refine ⟨?_, nodup_keys_dinsert _ _ _ h.2⟩
        intro kv hkv
        rcases mem_dinsert _ _ _ _ hkv with he | he
        · subst he
          rfl
        · exact h.1 kv he
      · rw [if_neg hr]
        exact h

theorem compute_life_wf (cols rows : Int) (cells : List (Point × Cell))
    (gen : Nat) :
    (∀ kv ∈ compute_life cols rows cells gen, (kv.2).pos = kv.1) ∧
    ((compute_life cols rows cells gen).map Prod.fst).Nodup := by
  have h := cl_fold_next_wf cols rows cells gen (cells.map Prod.snd) ([], [])
    (by simp)
  simpa [compute_life] using h

/-! ### Claims -/

/-- Claim C8: the empty population is a fixed point of step: for every
grid configuration and every generation number `g`, `compute_life` applied
to the empty population returns the empty population. -/
theorem claim_C8_empty_fixed_point :
    ∀ (cols rows : Int) (g : Nat), compute_life cols rows [] g = [] :=
  fun _ _ _ => rfl

/-- Claim C2 counterexample: on a 10x10 grid the source normalization
(which reduces modulo `cols - 1 = 9` and `rows - 1 = 9`) sends `(-1,-1)`
to `(8,8)`, not to `(9,9)` as the claim states. -/
theorem claim_C2_counterexample :
    align_point 10 10 ⟨-1, -1⟩ = ⟨8, 8⟩ ∧
    ¬ align_point 10 10 ⟨-1, -1⟩ = ⟨9, 9⟩ := by
  decide

/-- Claim C2 (amended): for grid dimensions at least 2, `align_point` is
idempotent and its result coordinates lie in `[0, cols-1) x [0, rows-1)`
(a strict subset of `[0, cols) x [0, rows)`), including for negative
inputs; in particular `align_point 10 10 (-1,-1) = (8,8)`. -/
theorem claim_C2_amended (cols rows : Int) (p : Point) (hc : 2 ≤ cols)
    (hr : 2 ≤ rows) :
    align_point cols rows (align_point cols rows p) = align_point cols rows p ∧
    0 ≤ (align_point cols rows p).x ∧ (align_point cols rows p).x < cols - 1 ∧
    0 ≤ (align_point cols rows p).y ∧ (align_point cols rows p).y < rows - 1 ∧
    align_point 10 10 ⟨-1, -1⟩ = ⟨8, 8⟩ := by
  obtain ⟨h1, h2, h3, h4⟩ := align_point_range cols rows p hc hr
  exact ⟨align_point_idem cols rows p, h1, h2, h3, h4, by decide⟩

/-- Witness for the amended claim C2 at `cols = rows = 10`, `p = (-1,-1)`. -/
theorem claim_C2_amended_witness :
    align_point 10 10 (align_point 10 10 ⟨-1, -1⟩) = align_point 10 10 ⟨-1, -1⟩ ∧
    0 ≤ (align_point 10 10 ⟨-1, -1⟩).x ∧
    (align_point 10 10 ⟨-1, -1⟩).x < 10 - 1 ∧
    0 ≤ (align_point 10 10 ⟨-1, -1⟩).y ∧
    (align_point 10 10 ⟨-1, -1⟩).y < 10 - 1 ∧
    align_point 10 10 ⟨-1, -1⟩ = ⟨8, 8⟩ :=
  claim_C2_amended 10 10 ⟨-1, -1⟩ (by decide) (by decide)

/-- Claim C3 counterexample: on a 10x10 grid, a living cell at `(0,0)`
does NOT count a living cell stored at `(9,9)` among its neighbors:
its neighbor count in that two-cell population is 0, because the source
normalization wraps modulo `cols - 1 = 9`, so the diagonal wraparound
neighbor of `(0,0)` is `(8,8)`, and `(9,9)` is not of that form. -/
theorem claim_C3_counterexample :
    num_cell_neighbors 10 10 ⟨0, 0⟩
      [(⟨0, 0⟩, ⟨⟨0, 0⟩, 0⟩), (⟨9, 9⟩, ⟨⟨9, 9⟩, 0⟩)] = 0 ∧
    ¬ 1 ≤ num_cell_neighbors 10 10 ⟨0, 0⟩
      [(⟨0, 0⟩, ⟨⟨0, 0⟩, 0⟩), (⟨9, 9⟩, ⟨⟨9, 9⟩, 0⟩)] := by
  decide

/-- Claim C3 (amended): on a `cols x rows` grid (both at least 4), the
diagonal wraparound neighbor of `(0,0)` is `(cols-2, rows-2)` (the
normalized image of `(-1,-1)` under the source's modulo-`(cols-1)` /
modulo-`(rows-1)` wrap), and a living cell there is counted: with the
two-cell population `{(0,0), (cols-2, rows-2)}` the neighbor count of
`(0,0)` is exactly 1. -/
theorem claim_C3_amended (cols rows : Int) (g1 g2 : Nat) (hc : 4 ≤ cols)
    (hr : 4 ≤ rows) :
    num_cell_neighbors cols rows ⟨0, 0⟩
      [(⟨0, 0⟩, ⟨⟨0, 0⟩, g1⟩),
       (⟨cols - 2, rows - 2⟩, ⟨⟨cols - 2, rows - 2⟩, g2⟩)] = 1 := by
  have ex1 : ((-1 : Int)) % (cols - 1) = cols - 2 := by
    rw [emod_neg_small (-1) (cols - 1) (by omega) (by omega)]
    ring
  have ey1 : ((-1 : Int)) % (rows - 1) = rows - 2 := by
    rw [emod_neg_small (-1) (rows - 1) (by omega) (by omega)]
    ring
  have ex2 : ((0 : Int)) % (cols - 1) = 0 := Int.emod_eq_of_lt (by omega) (by omega)
  have ey2 : ((0 : Int)) % (rows - 1) = 0 := Int.emod_eq_of_lt (by omega) (by omega)
  have ex3 : ((1 : Int)) % (cols - 1) = 1 := Int.emod_eq_of_lt (by omega) (by omega)
  have ey3 : ((1 : Int)) % (rows - 1) = 1 := Int.emod_eq_of_lt (by omega) (by omega)
  have f1 : ¬ ((0 : Int) = cols - 2) := by omega
  have f2 : ¬ ((0 : Int) = rows - 2) := by omega
  have f3 : ¬ ((1 : Int) = cols - 2) := by omega
  have f4 : ¬ ((1 : Int) = rows - 2) := by omega
  have f5 : ¬ ((cols - 2 : Int) = 0) := by omega
  have f6 : ¬ ((rows - 2 : Int) = 0) := by omega
  have g1 : ¬ ((cols - 1 : Int) ∣ 1) := by
    intro h
    have h2 := Int.le_of_dvd (by norm_num) h
    omega
  have g2 : ¬ ((rows - 1 : Int) ∣ 1) := by
    intro h
    have h2 := Int.le_of_dvd (by norm_num) h
    omega
  simp [num_cell_neighbors, dirs, neighborPoint, align_point, dictContains,
    dlookup, Point.mk.injEq, ex1, ey1, ex2, ey2, ex3, ey3, f1, f2, f3, f4, f5, f6,
    g1, g2]

/-- Witness for the amended claim C3 at `cols = rows = 10`: the cell at
`(8,8) = (10-2, 10-2)` is counted as a neighbor of `(0,0)`. -/
theorem claim_C3_amended_witness :
    num_cell_neighbors 10 10 ⟨0, 0⟩
      [(⟨0, 0⟩, ⟨⟨0, 0⟩, 0⟩),
       (⟨10 - 2, 10 - 2⟩, ⟨⟨10 - 2, 10 - 2⟩, 0⟩)] = 1 :=
  claim_C3_amended 10 10 0 0 (by decide) (by decide)

/-! ### Support for the remaining claims -/

theorem dictContains_exists {α : Type} (l : List (Point × α)) (q : Point)
    (h : dictContains l q = true) : ∃ c, dlookup l q = some c := by
  simp only [dictContains] at h
  exact Option.isSome_iff_exists.mp h

theorem dirs_neg : ∀ d ∈ dirs, ((-d.1, -d.2) : Int × Int) ∈ dirs := by decide

theorem neighbor_back (cols rows : Int) (p : Point) (d : Int × Int)
    (hp : align_point cols rows p = p) :
    neighborPoint cols rows (neighborPoint cols rows p d) (-d.1, -d.2) = p := by
  calc neighborPoint cols rows (neighborPoint cols rows p d) (-d.1, -d.2)
      = neighborPoint cols rows ⟨p.x + d.1, p.y + d.2⟩ (-d.1, -d.2) :=
        neighborPoint_align cols rows ⟨p.x + d.1, p.y + d.2⟩ (-d.1, -d.2)
    _ = align_point cols rows ⟨p.x + d.1 + -d.1, p.y + d.2 + -d.2⟩ := rfl
    _ = p := by
        have hx : p.x + d.1 + -d.1 = p.x := by ring
        have hy : p.y + d.2 + -d.2 = p.y := by ring
        rw [hx, hy]
        exact hp

/-- Claim C9: `align_point` always lands in `[0, cols-1) x [0, rows-1)`
(so the coordinates `cols - 1` and `rows - 1` are never produced), and
consequently every birth position of `compute_life` (an output key that
is not an input key) avoids the last column and the last row of the
`cols x rows` domain. -/
theorem claim_C9_range_and_births (cols rows : Int)
    (cells : List (Point × Cell)) (gen : Nat) (p : Point)
    (hc : 2 ≤ cols) (hr : 2 ≤ rows)
    (hkv : ∀ kv ∈ cells, (kv.2).pos = kv.1)
    (hnd : (cells.map Prod.fst).Nodup) :
    (∀ q : Point, 0 ≤ (align_point cols rows q).x ∧
      (align_point cols rows q).x < cols - 1 ∧
      0 ≤ (align_point cols rows q).y ∧
      (align_point cols rows q).y < rows - 1) ∧
    (dictContains (compute_life cols rows cells gen) p = true →
      dictContains cells p = false →
      0 ≤ p.x ∧ p.x < cols - 1 ∧ 0 ≤ p.y ∧ p.y < rows - 1) := by
  constructor
  · intro q
    exact align_point_range cols rows q hc hr
  · intro hout hdead
    rcases dictContains_exists _ _ hout with ⟨c, hcl⟩
    rcases (compute_life_lookup cols rows cells gen hkv hnd p c).mp hcl with
      ⟨hlk, -⟩ | ⟨-, hnb, -, -⟩
    · exfalso
      have hcp : dictContains cells p = true := by simp [dictContains, hlk]
      rw [hdead] at hcp
      exact Bool.noConfusion hcp
    · rcases hnb with ⟨c', -, d, -, hnp⟩
      rw [← hnp]
      exact align_point_range cols rows ⟨c'.pos.x + d.1, c'.pos.y + d.2⟩ hc hr

/-- Witness for claim C9 on a 10x10 grid with a blinker population, at
the birth position `(1, 8)`. -/
theorem claim_C9_range_and_births_witness :
    ((∀ q : Point, 0 ≤ (align_point 10 10 q).x ∧
      (align_point 10 10 q).x < 10 - 1 ∧
      0 ≤ (align_point 10 10 q).y ∧
      (align_point 10 10 q).y < 10 - 1) ∧
    (dictContains (compute_life 10 10
        ([(⟨0,0⟩, ⟨⟨0,0⟩, 0⟩), (⟨1,0⟩, ⟨⟨1,0⟩, 0⟩), (⟨2,0⟩, ⟨⟨2,0⟩, 0⟩)] : List (Point × Cell)) 0)
        ⟨1, 8⟩ = true →
      dictContains
        ([(⟨0,0⟩, ⟨⟨0,0⟩, 0⟩), (⟨1,0⟩, ⟨⟨1,0⟩, 0⟩), (⟨2,0⟩, ⟨⟨2,0⟩, 0⟩)] : List (Point × Cell))
        ⟨1, 8⟩ = false →
      0 ≤ (⟨1, 8⟩ : Point).x ∧ (⟨1, 8⟩ : Point).x < 10 - 1 ∧
      0 ≤ (⟨1, 8⟩ : Point).y ∧ (⟨1, 8⟩ : Point).y < 10 - 1)) :=
  claim_C9_range_and_births 10 10
    ([(⟨0,0⟩, ⟨⟨0,0⟩, 0⟩), (⟨1,0⟩, ⟨⟨1,0⟩, 0⟩), (⟨2,0⟩, ⟨⟨2,0⟩, 0⟩)] : List (Point × Cell)) 0
    ⟨1, 8⟩ (by decide) (by decide) (by decide) (by decide)

/-- Claim C10 (locality): every key of the output of `compute_life` is
either a key of the input population, or the `align_point` image of one
of the 8 Moore-neighbor offsets of some key of the input population. -/
theorem claim_C10_locality (cols rows : Int) (cells : List (Point × Cell))
    (gen : Nat) (p : Point)
    (hkv : ∀ kv ∈ cells, (kv.2).pos = kv.1)
    (hnd : (cells.map Prod.fst).Nodup)
    (hout : dictContains (compute_life cols rows cells gen) p = true) :
    dictContains cells p = true ∨
      ∃ k, dictContains cells k = true ∧
        ∃ d ∈ dirs, align_point cols rows ⟨k.x + d.1, k.y + d.2⟩ = p := by
  rcases dictContains_exists _ _ hout with ⟨c, hcl⟩
  rcases (compute_life_lookup cols rows cells gen hkv hnd p c).mp hcl with
    ⟨hlk, -⟩ | ⟨-, hnb, -, -⟩
  · exact Or.inl (by simp [dictContains, hlk])
  · right
    rcases hnb with ⟨c', hcm, d, hd, hnp⟩
    rcases List.mem_map.mp hcm with ⟨kv, hkvm, hsnd⟩
    have hpos := hkv kv hkvm
    rw [hsnd] at hpos
    refine ⟨kv.1, ?_, d, hd, ?_⟩
    · rw [dictContains_true_iff]
      exact List.mem_map_of_mem Prod.fst hkvm
    · rw [← hpos]
      exact hnp

/-- Witness for claim C10 on a 10x10 grid with a blinker population, at
the birth position `(1, 1)`. -/
theorem claim_C10_locality_witness :
    dictContains
        ([(⟨0,0⟩, ⟨⟨0,0⟩, 0⟩), (⟨1,0⟩, ⟨⟨1,0⟩, 0⟩), (⟨2,0⟩, ⟨⟨2,0⟩, 0⟩)] : List (Point × Cell))
        ⟨1, 1⟩ = true ∨
      ∃ k, dictContains
        ([(⟨0,0⟩, ⟨⟨0,0⟩, 0⟩), (⟨1,0⟩, ⟨⟨1,0⟩, 0⟩), (⟨2,0⟩, ⟨⟨2,0⟩, 0⟩)] : List (Point × Cell))
        k = true ∧
        ∃ d ∈ dirs, align_point 10 10 ⟨k.x + d.1, k.y + d.2⟩ = ⟨1, 1⟩ :=
  claim_C10_locality 10 10
    ([(⟨0,0⟩, ⟨⟨0,0⟩, 0⟩), (⟨1,0⟩, ⟨⟨1,0⟩, 0⟩), (⟨2,0⟩, ⟨⟨2,0⟩, 0⟩)] : List (Point × Cell)) 0
    ⟨1, 1⟩ (by decide) (by decide) (by decide)

/-- Claim C1: for a well-formed population and a normalized position `p`,
the output of `compute_life` contains `p` exactly when the standard Life
rule (under the source's toroidal adjacency) prescribes it: `p` is a key
of the input with 2 or 3 occupied neighbors (survival), or `p` is not a
key and has exactly 3 occupied neighbors (birth); dead positions with any
other neighbor count stay absent. -/
theorem claim_C1_life_rule (cols rows : Int) (cells : List (Point × Cell))
    (gen : Nat) (p : Point)
    (hkv : ∀ kv ∈ cells, (kv.2).pos = kv.1)
    (hnd : (cells.map Prod.fst).Nodup)
    (hp : align_point cols rows p = p) :
    dictContains (compute_life cols rows cells gen) p = true ↔
      ((dictContains cells p = true ∧
        (num_cell_neighbors cols rows p cells = 2 ∨
         num_cell_neighbors cols rows p cells = 3)) ∨
       (dictContains cells p = false ∧
        num_cell_neighbors cols rows p cells = 3)) := by
  constructor
  · intro hout
    rcases dictContains_exists _ _ hout with ⟨c, hcl⟩
    rcases (compute_life_lookup cols rows cells gen hkv hnd p c).mp hcl with
      ⟨hlk, hcnt⟩ | ⟨hdead, -, h3n, -⟩
    · exact Or.inl ⟨by simp [dictContains, hlk], hcnt⟩
    · exact Or.inr ⟨hdead, h3n⟩
  · rintro (⟨halive, hcnt⟩ | ⟨hdead, h3n⟩)
    · rcases dictContains_exists _ _ halive with ⟨c, hlk⟩
      have hres := (compute_life_lookup cols rows cells gen hkv hnd p c).mpr
        (Or.inl ⟨hlk, hcnt⟩)
      simp [dictContains, hres]
    · have h3' := h3n
      rw [num_cell_neighbors_eq_countP] at h3'
      have hpos : 0 < dirs.countP
          (fun d => dictContains cells (neighborPoint cols rows p d)) := by
        omega
      rcases List.countP_pos.mp hpos with ⟨d, hd, hcd⟩
      rcases dictContains_exists _ _ (by simpa using hcd) with ⟨c', hlk'⟩
      have hmem := mem_of_dlookup_eq_some cells _ c' hlk'
      have hpos' := hkv _ hmem
      simp only at hpos'
      have hnbhd : nbhdP cols rows (cells.map Prod.snd) p := by
        refine ⟨c', List.mem_map_of_mem Prod.snd hmem, (-d.1, -d.2),
          dirs_neg d hd, ?_⟩
        rw [hpos']
        exact neighbor_back cols rows p d hp
      have hres := (compute_life_lookup cols rows cells gen hkv hnd p
        ⟨p, gen + 1⟩).mpr (Or.inr ⟨hdead, hnbhd, h3n, rfl⟩)
      simp [dictContains, hres]

/-- Witness for claim C1 on a 10x10 grid with a blinker population, at
the dead position `(1, 1)` which has exactly 3 occupied neighbors. -/
theorem claim_C1_life_rule_witness :
    dictContains (compute_life 10 10
        ([(⟨0,0⟩, ⟨⟨0,0⟩, 0⟩), (⟨1,0⟩, ⟨⟨1,0⟩, 0⟩), (⟨2,0⟩, ⟨⟨2,0⟩, 0⟩)] :
          List (Point × Cell)) 0) ⟨1, 1⟩ = true ↔
      ((dictContains
          ([(⟨0,0⟩, ⟨⟨0,0⟩, 0⟩), (⟨1,0⟩, ⟨⟨1,0⟩, 0⟩), (⟨2,0⟩, ⟨⟨2,0⟩, 0⟩)] :
            List (Point × Cell)) ⟨1, 1⟩ = true ∧
        (num_cell_neighbors 10 10 ⟨1, 1⟩
          ([(⟨0,0⟩, ⟨⟨0,0⟩, 0⟩), (⟨1,0⟩, ⟨⟨1,0⟩, 0⟩), (⟨2,0⟩, ⟨⟨2,0⟩, 0⟩)] :
            List (Point × Cell)) = 2 ∨
         num_cell_neighbors 10 10 ⟨1, 1⟩
          ([(⟨0,0⟩, ⟨⟨0,0⟩, 0⟩), (⟨1,0⟩, ⟨⟨1,0⟩, 0⟩), (⟨2,0⟩, ⟨⟨2,0⟩, 0⟩)] :
            List (Point × Cell)) = 3)) ∨
       (dictContains
          ([(⟨0,0⟩, ⟨⟨0,0⟩, 0⟩), (⟨1,0⟩, ⟨⟨1,0⟩, 0⟩), (⟨2,0⟩, ⟨⟨2,0⟩, 0⟩)] :
            List (Point × Cell)) ⟨1, 1⟩ = false ∧
        num_cell_neighbors 10 10 ⟨1, 1⟩
          ([(⟨0,0⟩, ⟨⟨0,0⟩, 0⟩), (⟨1,0⟩, ⟨⟨1,0⟩, 0⟩), (⟨2,0⟩, ⟨⟨2,0⟩, 0⟩)] :
            List (Point × Cell)) = 3)) :=
  claim_C1_life_rule 10 10
    ([(⟨0,0⟩, ⟨⟨0,0⟩, 0⟩), (⟨1,0⟩, ⟨⟨1,0⟩, 0⟩), (⟨2,0⟩, ⟨⟨2,0⟩, 0⟩)] :
      List (Point × Cell)) 0 ⟨1, 1⟩ (by decide) (by decide) (by decide)

/-- Claim C5: the output of `compute_life` consists exactly of the
surviving cells, carried over with their Cell value unchanged (same
position, same original generation), and of newly born cells whose
generation number is `gen + 1`; nothing else occurs in the result. -/
theorem claim_C5_output_contents (cols rows : Int)
    (cells : List (Point × Cell)) (gen : Nat) (p : Point) (c : Cell)
    (hkv : ∀ kv ∈ cells, (kv.2).pos = kv.1)
    (hnd : (cells.map Prod.fst).Nodup) :
    dlookup (compute_life cols rows cells gen) p = some c ↔
      ((dlookup cells p = some c ∧
        (num_cell_neighbors cols rows p cells = 2 ∨
         num_cell_neighbors cols rows p cells = 3)) ∨
       (dictContains cells p = false ∧
        nbhdP cols rows (cells.map Prod.snd) p ∧
        num_cell_neighbors cols rows p cells = 3 ∧ c = ⟨p, gen + 1⟩)) :=
  compute_life_lookup cols rows cells gen hkv hnd p c

/-- Witness for claim C5 on a 10x10 grid with a blinker population: the
survivor `(1,0)` keeps its original cell value. -/
theorem claim_C5_output_contents_witness :
    dlookup (compute_life 10 10
        ([(⟨0,0⟩, ⟨⟨0,0⟩, 0⟩), (⟨1,0⟩, ⟨⟨1,0⟩, 0⟩), (⟨2,0⟩, ⟨⟨2,0⟩, 0⟩)] :
          List (Point × Cell)) 0) ⟨1, 0⟩ = some ⟨⟨1, 0⟩, 0⟩ ↔
      ((dlookup
          ([(⟨0,0⟩, ⟨⟨0,0⟩, 0⟩), (⟨1,0⟩, ⟨⟨1,0⟩, 0⟩), (⟨2,0⟩, ⟨⟨2,0⟩, 0⟩)] :
            List (Point × Cell)) ⟨1, 0⟩ = some ⟨⟨1, 0⟩, 0⟩ ∧
        (num_cell_neighbors 10 10 ⟨1, 0⟩
          ([(⟨0,0⟩, ⟨⟨0,0⟩, 0⟩), (⟨1,0⟩, ⟨⟨1,0⟩, 0⟩), (⟨2,0⟩, ⟨⟨2,0⟩, 0⟩)] :
            List (Point × Cell)) = 2 ∨
         num_cell_neighbors 10 10 ⟨1, 0⟩
          ([(⟨0,0⟩, ⟨⟨0,0⟩, 0⟩), (⟨1,0⟩, ⟨⟨1,0⟩, 0⟩), (⟨2,0⟩, ⟨⟨2,0⟩, 0⟩)] :
            List (Point × Cell)) = 3)) ∨
       (dictContains
          ([(⟨0,0⟩, ⟨⟨0,0⟩, 0⟩), (⟨1,0⟩, ⟨⟨1,0⟩, 0⟩), (⟨2,0⟩, ⟨⟨2,0⟩, 0⟩)] :
            List (Point × Cell)) ⟨1, 0⟩ = false ∧
        nbhdP 10 10
          (([(⟨0,0⟩, ⟨⟨0,0⟩, 0⟩), (⟨1,0⟩, ⟨⟨1,0⟩, 0⟩), (⟨2,0⟩, ⟨⟨2,0⟩, 0⟩)] :
            List (Point × Cell)).map Prod.snd) ⟨1, 0⟩ ∧
        num_cell_neighbors 10 10 ⟨1, 0⟩
          ([(⟨0,0⟩, ⟨⟨0,0⟩, 0⟩), (⟨1,0⟩, ⟨⟨1,0⟩, 0⟩), (⟨2,0⟩, ⟨⟨2,0⟩, 0⟩)] :
            List (Point × Cell)) = 3 ∧ (⟨⟨1, 0⟩, 0⟩ : Cell) = ⟨⟨1, 0⟩, 0 + 1⟩)) :=
  claim_C5_output_contents 10 10
    ([(⟨0,0⟩, ⟨⟨0,0⟩, 0⟩), (⟨1,0⟩, ⟨⟨1,0⟩, 0⟩), (⟨2,0⟩, ⟨⟨2,0⟩, 0⟩)] :
      List (Point × Cell)) 0 ⟨1, 0⟩ ⟨⟨1, 0⟩, 0⟩ (by decide) (by decide)

/-- Claim C4 (determinism / order-independence): for a well-formed
population, `compute_life` applied to any reordering (permutation) of the
living cells yields an identical result mapping: the same positions bound
to the same Cell values. -/
theorem claim_C4_order_independence (cols rows : Int)
    (l1 l2 : List (Point × Cell)) (gen : Nat)
    (hkv : ∀ kv ∈ l1, (kv.2).pos = kv.1)
    (hnd : (l1.map Prod.fst).Nodup)
    (hperm : l1.Perm l2) (p : Point) :
    dlookup (compute_life cols rows l1 gen) p =
      dlookup (compute_life cols rows l2 gen) p := by
  have hkv2 : ∀ kv ∈ l2, (kv.2).pos = kv.1 :=
    fun kv h => hkv kv (hperm.mem_iff.mpr h)
  have hnd2 : (l2.map Prod.fst).Nodup := ((hperm.map Prod.fst).nodup_iff).mp hnd
  have hlk : ∀ q, dlookup l1 q = dlookup l2 q := dlookup_perm l1 l2 hperm hnd
  have hct : ∀ q, dictContains l1 q = dictContains l2 q :=
    fun q => congrArg Option.isSome (hlk q)
  have hncn : ∀ q, num_cell_neighbors cols rows q l1 =
      num_cell_neighbors cols rows q l2 := by
    intro q
    rw [num_cell_neighbors_eq_countP, num_cell_neighbors_eq_countP]
    have hfun : (fun d => dictContains l1 (neighborPoint cols rows q d)) =
        (fun d => dictContains l2 (neighborPoint cols rows q d)) :=
      funext fun d => hct _
    rw [hfun]
  have hnb : ∀ q, nbhdP cols rows (l1.map Prod.snd) q ↔
      nbhdP cols rows (l2.map Prod.snd) q := by
    intro q
    constructor
    · rintro ⟨c', hm, hr⟩
      exact ⟨c', (hperm.map Prod.snd).mem_iff.mp hm, hr⟩
    · rintro ⟨c', hm, hr⟩
      exact ⟨c', (hperm.map Prod.snd).mem_iff.mpr hm, hr⟩
  have hA : ∀ c : Cell,
      dlookup (compute_life cols rows l1 gen) p = some c ↔
      dlookup (compute_life cols rows l2 gen) p = some c := by
    intro c
    rw [compute_life_lookup cols rows l1 gen hkv hnd p c,
      compute_life_lookup cols rows l2 gen hkv2 hnd2 p c,
      hlk p, hct p, hncn p, hnb p]
  cases h1 : dlookup (compute_life cols rows l1 gen) p with
  | none =>
      cases h2 : dlookup (compute_life cols rows l2 gen) p with
      | none => rfl
      | some c =>
          exfalso
          rw [(hA c).mpr h2] at h1
          exact Option.noConfusion h1
  | some c =>
      exact ((hA c).mp h1).symm

/-- Witness for claim C4: the blinker population on a 10x10 grid, listed
in two different orders, yields the same binding at the survivor
position `(1, 0)`. -/
theorem claim_C4_order_independence_witness :
    dlookup (compute_life 10 10
        ([(⟨0,0⟩, ⟨⟨0,0⟩, 0⟩), (⟨1,0⟩, ⟨⟨1,0⟩, 0⟩), (⟨2,0⟩, ⟨⟨2,0⟩, 0⟩)] :
          List (Point × Cell)) 0) ⟨1, 0⟩ =
      dlookup (compute_life 10 10
        ([(⟨2,0⟩, ⟨⟨2,0⟩, 0⟩), (⟨0,0⟩, ⟨⟨0,0⟩, 0⟩), (⟨1,0⟩, ⟨⟨1,0⟩, 0⟩)] :
          List (Point × Cell)) 0) ⟨1, 0⟩ :=
  claim_C4_order_independence 10 10
    ([(⟨0,0⟩, ⟨⟨0,0⟩, 0⟩), (⟨1,0⟩, ⟨⟨1,0⟩, 0⟩), (⟨2,0⟩, ⟨⟨2,0⟩, 0⟩)] :
      List (Point × Cell))
    ([(⟨2,0⟩, ⟨⟨2,0⟩, 0⟩), (⟨0,0⟩, ⟨⟨0,0⟩, 0⟩), (⟨1,0⟩, ⟨⟨1,0⟩, 0⟩)] :
      List (Point × Cell)) 0 (by decide) (by decide)
    (by decide) ⟨1, 0⟩

/-! ### Claim C7 support: the cache invariant at every point -/

theorem cl_fold_procOK (cols rows : Int) (cells : List (Point × Cell))
    (gen : Nat) :
    ∀ (cs : List Cell) (st : List (Point × Bool) × List (Point × Cell)),
      procOK cells st.1 →
      procOK cells ((cs.foldl (cl_step cols rows cells gen) st).1) := by
  intro cs
  induction cs with
  | nil =>
      intro st h
      simpa using h
  | cons c cs ih =>
      intro st h
      rw [List.foldl_cons]
      refine ih _ ?_
      have h1 : (cl_step cols rows cells gen st c).1 =
          (dirs.foldl (cn_step cols rows cells c.pos) (0, [], st.1)).2.2 := by
        rw [cl_step_fst, check_neighbors_eq]
      rw [h1]
      exact (cn_fold_spec cols rows cells c.pos dirs 0 [] st.1 h).2.1

/-- Claim C7: the transient neighbor-status cache invariant, at every
point of one invocation of `compute_life`.  Any intermediate cache state
(reached after fully processing the cells `cs` and then the first `ds`
neighbor directions of the next cell `c`) has pairwise-distinct keys
whose stored boolean equals occupancy in the unchanging input population,
and extends the cache from the start of the current cell scan without
modifying any existing entry - so a position is inserted at most once and
its value is never overwritten. -/
theorem claim_C7_cache_invariant (cols rows : Int)
    (cells : List (Point × Cell)) (gen : Nat)
    (cs rest : List Cell) (c : Cell) (ds es : List (Int × Int))
    (hsplit : cells.map Prod.snd = cs ++ c :: rest)
    (hdirs : dirs = ds ++ es) :
    ((((ds.foldl (cn_step cols rows cells c.pos)
        (0, [], (cs.foldl (cl_step cols rows cells gen) ([], [])).1)).2.2).map
          Prod.fst).Nodup ∧
     (∀ kv ∈ (ds.foldl (cn_step cols rows cells c.pos)
        (0, [], (cs.foldl (cl_step cols rows cells gen) ([], [])).1)).2.2,
        kv.2 = dictContains cells kv.1)) ∧
    (∀ p b,
      dlookup ((cs.foldl (cl_step cols rows cells gen) ([], [])).1) p = some b →
      dlookup ((ds.foldl (cn_step cols rows cells c.pos)
        (0, [], (cs.foldl (cl_step cols rows cells gen) ([], [])).1)).2.2) p
          = some b) := by
  have h0 : procOK cells ((cs.foldl (cl_step cols rows cells gen) ([], [])).1) := by
    refine cl_fold_procOK cols rows cells gen cs ([], []) ⟨List.nodup_nil, ?_⟩
    intro kv hkv
    exact absurd hkv (List.not_mem_nil kv)
  rcases cn_fold_spec cols rows cells c.pos ds 0 []
    ((cs.foldl (cl_step cols rows cells gen) ([], [])).1) h0 with ⟨-, h2, -, h4, -⟩
  exact ⟨h2, h4⟩

/-- Witness for claim C7: the blinker population on a 10x10 grid, with
the cache state inspected after the first processed cell and the first
three neighbor directions of the second cell. -/
theorem claim_C7_cache_invariant_witness :
    ((((([(-1, -1), (-1, 0), (-1, 1)] : List (Int × Int)).foldl
        (cn_step 10 10
          ([(⟨0,0⟩, ⟨⟨0,0⟩, 0⟩), (⟨1,0⟩, ⟨⟨1,0⟩, 0⟩), (⟨2,0⟩, ⟨⟨2,0⟩, 0⟩)] :
            List (Point × Cell)) (⟨⟨1,0⟩, 0⟩ : Cell).pos)
        (0, [], ((([⟨⟨0,0⟩, 0⟩] : List Cell)).foldl
          (cl_step 10 10
            ([(⟨0,0⟩, ⟨⟨0,0⟩, 0⟩), (⟨1,0⟩, ⟨⟨1,0⟩, 0⟩), (⟨2,0⟩, ⟨⟨2,0⟩, 0⟩)] :
              List (Point × Cell)) 0) ([], [])).1)).2.2).map Prod.fst).Nodup ∧
     (∀ kv ∈ (([(-1, -1), (-1, 0), (-1, 1)] : List (Int × Int)).foldl
        (cn_step 10 10
          ([(⟨0,0⟩, ⟨⟨0,0⟩, 0⟩), (⟨1,0⟩, ⟨⟨1,0⟩, 0⟩), (⟨2,0⟩, ⟨⟨2,0⟩, 0⟩)] :
            List (Point × Cell)) (⟨⟨1,0⟩, 0⟩ : Cell).pos)
        (0, [], ((([⟨⟨0,0⟩, 0⟩] : List Cell)).foldl
          (cl_step 10 10
            ([(⟨0,0⟩, ⟨⟨0,0⟩, 0⟩), (⟨1,0⟩, ⟨⟨1,0⟩, 0⟩), (⟨2,0⟩, ⟨⟨2,0⟩, 0⟩)] :
              List (Point × Cell)) 0) ([], [])).1)).2.2,
        kv.2 = dictContains
          ([(⟨0,0⟩, ⟨⟨0,0⟩, 0⟩), (⟨1,0⟩, ⟨⟨1,0⟩, 0⟩), (⟨2,0⟩, ⟨⟨2,0⟩, 0⟩)] :
            List (Point × Cell)) kv.1)) ∧
    (∀ p b,
      dlookup ((([⟨⟨0,0⟩, 0⟩] : List Cell)).foldl
        (cl_step 10 10
          ([(⟨0,0⟩, ⟨⟨0,0⟩, 0⟩), (⟨1,0⟩, ⟨⟨1,0⟩, 0⟩), (⟨2,0⟩, ⟨⟨2,0⟩, 0⟩)] :
            List (Point × Cell)) 0) ([], [])).1 p = some b →
      dlookup ((([(-1, -1), (-1, 0), (-1, 1)] : List (Int × Int)).foldl
        (cn_step 10 10
          ([(⟨0,0⟩, ⟨⟨0,0⟩, 0⟩), (⟨1,0⟩, ⟨⟨1,0⟩, 0⟩), (⟨2,0⟩, ⟨⟨2,0⟩, 0⟩)] :
            List (Point × Cell)) (⟨⟨1,0⟩, 0⟩ : Cell).pos)
        (0, [], ((([⟨⟨0,0⟩, 0⟩] : List Cell)).foldl
          (cl_step 10 10
            ([(⟨0,0⟩, ⟨⟨0,0⟩, 0⟩), (⟨1,0⟩, ⟨⟨1,0⟩, 0⟩), (⟨2,0⟩, ⟨⟨2,0⟩, 0⟩)] :
              List (Point × Cell)) 0) ([], [])).1)).2.2) p = some b) :=
  claim_C7_cache_invariant 10 10
    ([(⟨0,0⟩, ⟨⟨0,0⟩, 0⟩), (⟨1,0⟩, ⟨⟨1,0⟩, 0⟩), (⟨2,0⟩, ⟨⟨2,0⟩, 0⟩)] :
      List (Point × Cell)) 0
    ([⟨⟨0,0⟩, 0⟩] : List Cell) ([⟨⟨2,0⟩, 0⟩] : List Cell) (⟨⟨1,0⟩, 0⟩ : Cell)
    ([(-1, -1), (-1, 0), (-1, 1)] : List (Int × Int))
    ([(0, -1), (0, 1), (1, -1), (1, 0), (1, 1)] : List (Int × Int))
    (by decide) (by decide)

/-! ### Claim C6 support: the blinker oscillator -/

set_option maxHeartbeats 2000000 in
theorem blinker_ncn_step1 (cols rows : Int) (hc : 5 ≤ cols) (hr : 5 ≤ rows) :
    num_cell_neighbors cols rows ⟨0, 0⟩ blinkerPop = 1 ∧
    num_cell_neighbors cols rows ⟨1, 0⟩ blinkerPop = 2 ∧
    num_cell_neighbors cols rows ⟨2, 0⟩ blinkerPop = 1 ∧
    num_cell_neighbors cols rows ⟨1, rows - 2⟩ blinkerPop = 3 ∧
    num_cell_neighbors cols rows ⟨1, 1⟩ blinkerPop = 3 ∧
    num_cell_neighbors cols rows ⟨cols - 2, rows - 2⟩ blinkerPop ≠ 3 ∧
    num_cell_neighbors cols rows ⟨cols - 2, 0⟩ blinkerPop ≠ 3 ∧
    num_cell_neighbors cols rows ⟨cols - 2, 1⟩ blinkerPop ≠ 3 ∧
    num_cell_neighbors cols rows ⟨0, rows - 2⟩ blinkerPop ≠ 3 ∧
    num_cell_neighbors cols rows ⟨0, 1⟩ blinkerPop ≠ 3 ∧
    num_cell_neighbors cols rows ⟨2, rows - 2⟩ blinkerPop ≠ 3 ∧
    num_cell_neighbors cols rows ⟨2, 1⟩ blinkerPop ≠ 3 ∧
    num_cell_neighbors cols rows ⟨3, rows - 2⟩ blinkerPop ≠ 3 ∧
    num_cell_neighbors cols rows ⟨3, 0⟩ blinkerPop ≠ 3 ∧
    num_cell_neighbors cols rows ⟨3, 1⟩ blinkerPop ≠ 3 := by
  have ax1 : ((-1 : Int)) % (cols - 1) = cols - 2 := by
    rw [emod_neg_small (-1) (cols - 1) (by omega) (by omega)]; ring
  have ax2 : ((0 : Int)) % (cols - 1) = 0 := Int.emod_eq_of_lt (by omega) (by omega)
  have ax3 : ((1 : Int)) % (cols - 1) = 1 := Int.emod_eq_of_lt (by omega) (by omega)
  have ax4 : ((2 : Int)) % (cols - 1) = 2 := Int.emod_eq_of_lt (by omega) (by omega)
  have ax5 : ((3 : Int)) % (cols - 1) = 3 := Int.emod_eq_of_lt (by omega) (by omega)
  have ax6 : (cols - 2 + -1) % (cols - 1) = cols - 3 := by
    have e : cols - 2 + -1 = cols - 3 := by ring
    rw [e]; exact Int.emod_eq_of_lt (by omega) (by omega)
  have ax7 : (cols - 2 + 0) % (cols - 1) = cols - 2 := by
    have e : cols - 2 + 0 = cols - 2 := by ring
    rw [e]; exact Int.emod_eq_of_lt (by omega) (by omega)
  have ax8 : (cols - 2 + 1) % (cols - 1) = 0 := by
    have e : cols - 2 + 1 = cols - 1 := by ring
    rw [e]; exact Int.emod_self
  have ax6b : (cols - 2 - 1) % (cols - 1) = cols - 3 := by
    have e : cols - 2 - 1 = cols - 3 := by ring
    rw [e]; exact Int.emod_eq_of_lt (by omega) (by omega)
  have ax7b : (cols - 2) % (cols - 1) = cols - 2 :=
    Int.emod_eq_of_lt (by omega) (by omega)
  have ax8b : (cols - 1) % (cols - 1) = 0 := Int.emod_self
  have ay1 : ((-1 : Int)) % (rows - 1) = rows - 2 := by
    rw [emod_neg_small (-1) (rows - 1) (by omega) (by omega)]; ring
  have ay2 : ((0 : Int)) % (rows - 1) = 0 := Int.emod_eq_of_lt (by omega) (by omega)
  have ay3 : ((1 : Int)) % (rows - 1) = 1 := Int.emod_eq_of_lt (by omega) (by omega)
  have ay4 : ((2 : Int)) % (rows - 1) = 2 := Int.emod_eq_of_lt (by omega) (by omega)
  have ay6 : (rows - 2 + -1) % (rows - 1) = rows - 3 := by
    have e : rows - 2 + -1 = rows - 3 := by ring
    rw [e]; exact Int.emod_eq_of_lt (by omega) (by omega)
  have ay7 : (rows - 2 + 0) % (rows - 1) = rows - 2 := by
    have e : rows - 2 + 0 = rows - 2 := by ring
    rw [e]; exact Int.emod_eq_of_lt (by omega) (by omega)
  have ay8 : (rows - 2 + 1) % (rows - 1) = 0 := by
    have e : rows - 2 + 1 = rows - 1 := by ring
    rw [e]; exact Int.emod_self
  have ay6b : (rows - 2 - 1) % (rows - 1) = rows - 3 := by
    have e : rows - 2 - 1 = rows - 3 := by ring
    rw [e]; exact Int.emod_eq_of_lt (by omega) (by omega)
  have ay7b : (rows - 2) % (rows - 1) = rows - 2 :=
    Int.emod_eq_of_lt (by omega) (by omega)
  have ay8b : (rows - 1) % (rows - 1) = 0 := Int.emod_self
  have fx1 : ¬ ((cols - 2 : Int) = 0) := by omega
  have fx2 : ¬ ((cols - 2 : Int) = 1) := by omega
  have fx3 : ¬ ((cols - 2 : Int) = 2) := by omega
  have fx4 : ¬ ((cols - 3 : Int) = 0) := by omega
  have fx5 : ¬ ((cols - 3 : Int) = 1) := by omega
  have fy1 : ¬ ((rows - 2 : Int) = 0) := by omega
  have fy2 : ¬ ((rows - 3 : Int) = 0) := by omega
  have n00 : num_cell_neighbors cols rows ⟨0, 0⟩ blinkerPop = 1 := by
    simp [num_cell_neighbors, blinkerPop, dirs, neighborPoint, align_point, dictContains,
      dlookup, Point.mk.injEq, ax1, ax2, ax3, ax4, ax5, ax6, ax7, ax8, ax6b,
      ax7b, ax8b, ay1, ay2, ay3, ay4, ay6, ay7, ay8, ay6b, ay7b, ay8b,
      fx1, fx2, fx3, fx4, fx5, fy1, fy2, -EuclideanDomain.mod_eq_zero]
  have n10 : num_cell_neighbors cols rows ⟨1, 0⟩ blinkerPop = 2 := by
    simp [num_cell_neighbors, blinkerPop, dirs, neighborPoint, align_point, dictContains,
      dlookup, Point.mk.injEq, ax1, ax2, ax3, ax4, ax5, ax6, ax7, ax8, ax6b,
      ax7b, ax8b, ay1, ay2, ay3, ay4, ay6, ay7, ay8, ay6b, ay7b, ay8b,
      fx1, fx2, fx3, fx4, fx5, fy1, fy2, -EuclideanDomain.mod_eq_zero]
  have n20 : num_cell_neighbors cols rows ⟨2, 0⟩ blinkerPop = 1 := by
    simp [num_cell_neighbors, blinkerPop, dirs, neighborPoint, align_point, dictContains,
      dlookup, Point.mk.injEq, ax1, ax2, ax3, ax4, ax5, ax6, ax7, ax8, ax6b,
      ax7b, ax8b, ay1, ay2, ay3, ay4, ay6, ay7, ay8, ay6b, ay7b, ay8b,
      fx1, fx2, fx3, fx4, fx5, fy1, fy2, -EuclideanDomain.mod_eq_zero]
  have n1h : num_cell_neighbors cols rows ⟨1, rows - 2⟩ blinkerPop = 3 := by
    simp [num_cell_neighbors, blinkerPop, dirs, neighborPoint, align_point, dictContains,
      dlookup, Point.mk.injEq, ax1, ax2, ax3, ax4, ax5, ax6, ax7, ax8, ax6b,
      ax7b, ax8b, ay1, ay2, ay3, ay4, ay6, ay7, ay8, ay6b, ay7b, ay8b,
      fx1, fx2, fx3, fx4, fx5, fy1, fy2, -EuclideanDomain.mod_eq_zero]
  have n11 : num_cell_neighbors cols rows ⟨1, 1⟩ blinkerPop = 3 := by
    simp [num_cell_neighbors, blinkerPop, dirs, neighborPoint, align_point, dictContains,
      dlookup, Point.mk.injEq, ax1, ax2, ax3, ax4, ax5, ax6, ax7, ax8, ax6b,
      ax7b, ax8b, ay1, ay2, ay3, ay4, ay6, ay7, ay8, ay6b, ay7b, ay8b,
      fx1, fx2, fx3, fx4, fx5, fy1, fy2, -EuclideanDomain.mod_eq_zero]
  have nmh : num_cell_neighbors cols rows ⟨cols - 2, rows - 2⟩ blinkerPop ≠ 3 := by
    simp [num_cell_neighbors, blinkerPop, dirs, neighborPoint, align_point, dictContains,
      dlookup, Point.mk.injEq, ax1, ax2, ax3, ax4, ax5, ax6, ax7, ax8, ax6b,
      ax7b, ax8b, ay1, ay2, ay3, ay4, ay6, ay7, ay8, ay6b, ay7b, ay8b,
      fx1, fx2, fx3, fx4, fx5, fy1, fy2, -EuclideanDomain.mod_eq_zero]
    split_ifs <;> norm_num
  have nm0 : num_cell_neighbors cols rows ⟨cols - 2, 0⟩ blinkerPop ≠ 3 := by
    simp [num_cell_neighbors, blinkerPop, dirs, neighborPoint, align_point, dictContains,
      dlookup, Point.mk.injEq, ax1, ax2, ax3, ax4, ax5, ax6, ax7, ax8, ax6b,
      ax7b, ax8b, ay1, ay2, ay3, ay4, ay6, ay7, ay8, ay6b, ay7b, ay8b,
      fx1, fx2, fx3, fx4, fx5, fy1, fy2, -EuclideanDomain.mod_eq_zero]
    split_ifs <;> norm_num
  have nm1 : num_cell_neighbors cols rows ⟨cols - 2, 1⟩ blinkerPop ≠ 3 := by
    simp [num_cell_neighbors, blinkerPop, dirs, neighborPoint, align_point, dictContains,
      dlookup, Point.mk.injEq, ax1, ax2, ax3, ax4, ax5, ax6, ax7, ax8, ax6b,
      ax7b, ax8b, ay1, ay2, ay3, ay4, ay6, ay7, ay8, ay6b, ay7b, ay8b,
      fx1, fx2, fx3, fx4, fx5, fy1, fy2, -EuclideanDomain.mod_eq_zero]
    split_ifs <;> norm_num
  have n0h : num_cell_neighbors cols rows ⟨0, rows - 2⟩ blinkerPop ≠ 3 := by
    simp [num_cell_neighbors, blinkerPop, dirs, neighborPoint, align_point, dictContains,
      dlookup, Point.mk.injEq, ax1, ax2, ax3, ax4, ax5, ax6, ax7, ax8, ax6b,
      ax7b, ax8b, ay1, ay2, ay3, ay4, ay6, ay7, ay8, ay6b, ay7b, ay8b,
      fx1, fx2, fx3, fx4, fx5, fy1, fy2, -EuclideanDomain.mod_eq_zero]
  have n01 : num_cell_neighbors cols rows ⟨0, 1⟩ blinkerPop ≠ 3 := by
    simp [num_cell_neighbors, blinkerPop, dirs, neighborPoint, align_point, dictContains,
      dlookup, Point.mk.injEq, ax1, ax2, ax3, ax4, ax5, ax6, ax7, ax8, ax6b,
      ax7b, ax8b, ay1, ay2, ay3, ay4, ay6, ay7, ay8, ay6b, ay7b, ay8b,
      fx1, fx2, fx3, fx4, fx5, fy1, fy2, -EuclideanDomain.mod_eq_zero]
  have n2h : num_cell_neighbors cols rows ⟨2, rows - 2⟩ blinkerPop ≠ 3 := by
    simp [num_cell_neighbors, blinkerPop, dirs, neighborPoint, align_point, dictContains,
      dlookup, Point.mk.injEq, ax1, ax2, ax3, ax4, ax5, ax6, ax7, ax8, ax6b,
      ax7b, ax8b, ay1, ay2, ay3, ay4, ay6, ay7, ay8, ay6b, ay7b, ay8b,
      fx1, fx2, fx3, fx4, fx5, fy1, fy2, -EuclideanDomain.mod_eq_zero]
  have n21 : num_cell_neighbors cols rows ⟨2, 1⟩ blinkerPop ≠ 3 := by
    simp [num_cell_neighbors, blinkerPop, dirs, neighborPoint, align_point, dictContains,
      dlookup, Point.mk.injEq, ax1, ax2, ax3, ax4, ax5, ax6, ax7, ax8, ax6b,
      ax7b, ax8b, ay1, ay2, ay3, ay4, ay6, ay7, ay8, ay6b, ay7b, ay8b,
      fx1, fx2, fx3, fx4, fx5, fy1, fy2, -EuclideanDomain.mod_eq_zero]
  have n3h : num_cell_neighbors cols rows ⟨3, rows - 2⟩ blinkerPop ≠ 3 := by
    simp [num_cell_neighbors, blinkerPop, dirs, neighborPoint, align_point, dictContains,
      dlookup, Point.mk.injEq, ax1, ax2, ax3, ax4, ax5, ax6, ax7, ax8, ax6b,
      ax7b, ax8b, ay1, ay2, ay3, ay4, ay6, ay7, ay8, ay6b, ay7b, ay8b,
      fx1, fx2, fx3, fx4, fx5, fy1, fy2, -EuclideanDomain.mod_eq_zero]
    split_ifs <;> norm_num
  have n30 : num_cell_neighbors cols rows ⟨3, 0⟩ blinkerPop ≠ 3 := by
    simp [num_cell_neighbors, blinkerPop, dirs, neighborPoint, align_point, dictContains,
      dlookup, Point.mk.injEq, ax1, ax2, ax3, ax4, ax5, ax6, ax7, ax8, ax6b,
      ax7b, ax8b, ay1, ay2, ay3, ay4, ay6, ay7, ay8, ay6b, ay7b, ay8b,
      fx1, fx2, fx3, fx4, fx5, fy1, fy2, -EuclideanDomain.mod_eq_zero]
    split_ifs <;> norm_num
  have n31 : num_cell_neighbors cols rows ⟨3, 1⟩ blinkerPop ≠ 3 := by
    simp [num_cell_neighbors, blinkerPop, dirs, neighborPoint, align_point, dictContains,
      dlookup, Point.mk.injEq, ax1, ax2, ax3, ax4, ax5, ax6, ax7, ax8, ax6b,
      ax7b, ax8b, ay1, ay2, ay3, ay4, ay6, ay7, ay8, ay6b, ay7b, ay8b,
      fx1, fx2, fx3, fx4, fx5, fy1, fy2, -EuclideanDomain.mod_eq_zero]
    split_ifs <;> norm_num
  exact ⟨n00, n10, n20, n1h, n11, nmh, nm0, nm1, n0h, n01, n2h, n21, n3h, n30, n31⟩

set_option maxHeartbeats 2000000 in
theorem blinker_ncn_step2 (cols rows : Int) (hc : 5 ≤ cols) (hr : 5 ≤ rows)
    (L1 : List (Point × Cell))
    (hct2 : ∀ x : Point, dictContains L1 x =
      decide (x = ⟨1, rows - 2⟩ ∨ x = ⟨1, 0⟩ ∨ x = ⟨1, 1⟩)) :
    num_cell_neighbors cols rows ⟨0, 0⟩ L1 = 3 ∧
    num_cell_neighbors cols rows ⟨2, 0⟩ L1 = 3 ∧
    num_cell_neighbors cols rows ⟨1, 0⟩ L1 = 2 ∧
    num_cell_neighbors cols rows ⟨1, rows - 2⟩ L1 = 1 ∧
    num_cell_neighbors cols rows ⟨1, 1⟩ L1 = 1 ∧
    num_cell_neighbors cols rows ⟨0, rows - 3⟩ L1 ≠ 3 ∧
    num_cell_neighbors cols rows ⟨1, rows - 3⟩ L1 ≠ 3 ∧
    num_cell_neighbors cols rows ⟨2, rows - 3⟩ L1 ≠ 3 ∧
    num_cell_neighbors cols rows ⟨0, rows - 2⟩ L1 ≠ 3 ∧
    num_cell_neighbors cols rows ⟨2, rows - 2⟩ L1 ≠ 3 ∧
    num_cell_neighbors cols rows ⟨0, 1⟩ L1 ≠ 3 ∧
    num_cell_neighbors cols rows ⟨2, 1⟩ L1 ≠ 3 ∧
    num_cell_neighbors cols rows ⟨0, 2⟩ L1 ≠ 3 ∧
    num_cell_neighbors cols rows ⟨1, 2⟩ L1 ≠ 3 ∧
    num_cell_neighbors cols rows ⟨2, 2⟩ L1 ≠ 3 := by
  have ax1 : ((-1 : Int)) % (cols - 1) = cols - 2 := by
    rw [emod_neg_small (-1) (cols - 1) (by omega) (by omega)]; ring
  have ax2 : ((0 : Int)) % (cols - 1) = 0 := Int.emod_eq_of_lt (by omega) (by omega)
  have ax3 : ((1 : Int)) % (cols - 1) = 1 := Int.emod_eq_of_lt (by omega) (by omega)
  have ax4 : ((2 : Int)) % (cols - 1) = 2 := Int.emod_eq_of_lt (by omega) (by omega)
  have ax5 : ((3 : Int)) % (cols - 1) = 3 := Int.emod_eq_of_lt (by omega) (by omega)
  have ay1 : ((-1 : Int)) % (rows - 1) = rows - 2 := by
    rw [emod_neg_small (-1) (rows - 1) (by omega) (by omega)]; ring
  have ay2 : ((0 : Int)) % (rows - 1) = 0 := Int.emod_eq_of_lt (by omega) (by omega)
  have ay3 : ((1 : Int)) % (rows - 1) = 1 := Int.emod_eq_of_lt (by omega) (by omega)
  have ay4 : ((2 : Int)) % (rows - 1) = 2 := Int.emod_eq_of_lt (by omega) (by omega)
  have ay5 : ((3 : Int)) % (rows - 1) = 3 := Int.emod_eq_of_lt (by omega) (by omega)
  have ay6 : (rows - 2 + -1) % (rows - 1) = rows - 3 := by
    have e : rows - 2 + -1 = rows - 3 := by ring
    rw [e]; exact Int.emod_eq_of_lt (by omega) (by omega)
  have ay7 : (rows - 2 + 0) % (rows - 1) = rows - 2 := by
    have e : rows - 2 + 0 = rows - 2 := by ring
    rw [e]; exact Int.emod_eq_of_lt (by omega) (by omega)
  have ay8 : (rows - 2 + 1) % (rows - 1) = 0 := by
    have e : rows - 2 + 1 = rows - 1 := by ring
    rw [e]; exact Int.emod_self
  have ay6b : (rows - 2 - 1) % (rows - 1) = rows - 3 := by
    have e : rows - 2 - 1 = rows - 3 := by ring
    rw [e]; exact Int.emod_eq_of_lt (by omega) (by omega)
  have ay7b : (rows - 2) % (rows - 1) = rows - 2 :=
    Int.emod_eq_of_lt (by omega) (by omega)
  have ay8b : (rows - 1) % (rows - 1) = 0 := Int.emod_self
  have ay9 : (rows - 3 + -1) % (rows - 1) = rows - 4 := by
    have e : rows - 3 + -1 = rows - 4 := by ring
    rw [e]; exact Int.emod_eq_of_lt (by omega) (by omega)
  have ay9b : (rows - 3 - 1) % (rows - 1) = rows - 4 := by
    have e : rows - 3 - 1 = rows - 4 := by ring
    rw [e]; exact Int.emod_eq_of_lt (by omega) (by omega)
  have ay10 : (rows - 3 + 0) % (rows - 1) = rows - 3 := by
    have e : rows - 3 + 0 = rows - 3 := by ring
    rw [e]; exact Int.emod_eq_of_lt (by omega) (by omega)
  have ay10b : (rows - 3) % (rows - 1) = rows - 3 :=
    Int.emod_eq_of_lt (by omega) (by omega)
  have ay11 : (rows - 3 + 1) % (rows - 1) = rows - 2 := by
    have e : rows - 3 + 1 = rows - 2 := by ring
    rw [e]; exact Int.emod_eq_of_lt (by omega) (by omega)
  have gx1 : ¬ ((cols - 2 : Int) = 1) := by omega
  have gy1 : ¬ ((rows - 2 : Int) = 0) := by omega
  have gy2 : ¬ ((rows - 2 : Int) = 1) := by omega
  have gy3 : ¬ ((rows - 3 : Int) = 0) := by omega
  have gy4 : ¬ ((rows - 3 : Int) = 1) := by omega
  have gy5 : ¬ ((rows - 4 : Int) = 0) := by omega
  have gy6 : ¬ ((0 : Int) = rows - 2) := by omega
  have gy7 : ¬ ((1 : Int) = rows - 2) := by omega
  have gy8 : ¬ ((2 : Int) = rows - 2) := by omega
  have gy9 : ¬ ((rows - 3 : Int) = rows - 2) := by omega
  have gy10 : ¬ ((rows - 4 : Int) = rows - 2) := by omega
  have m00 : num_cell_neighbors cols rows ⟨0, 0⟩ L1 = 3 := by
    simp [num_cell_neighbors, dirs, neighborPoint, align_point, hct2,
      Point.mk.injEq, ax1, ax2, ax3, ax4, ax5, ay1, ay2, ay3, ay4, ay5,
      ay6, ay7, ay8, ay6b, ay7b, ay8b, ay9, ay9b, ay10, ay10b, ay11,
      gx1, gy1, gy2, gy3, gy4, gy5, gy6, gy7, gy8, gy9, gy10,
      -EuclideanDomain.mod_eq_zero]
  have m20 : num_cell_neighbors cols rows ⟨2, 0⟩ L1 = 3 := by
    simp [num_cell_neighbors, dirs, neighborPoint, align_point, hct2,
      Point.mk.injEq, ax1, ax2, ax3, ax4, ax5, ay1, ay2, ay3, ay4, ay5,
      ay6, ay7, ay8, ay6b, ay7b, ay8b, ay9, ay9b, ay10, ay10b, ay11,
      gx1, gy1, gy2, gy3, gy4, gy5, gy6, gy7, gy8, gy9, gy10,
      -EuclideanDomain.mod_eq_zero]
  have m10 : num_cell_neighbors cols rows ⟨1, 0⟩ L1 = 2 := by
    simp [num_cell_neighbors, dirs, neighborPoint, align_point, hct2,
      Point.mk.injEq, ax1, ax2, ax3, ax4, ax5, ay1, ay2, ay3, ay4, ay5,
      ay6, ay7, ay8, ay6b, ay7b, ay8b, ay9, ay9b, ay10, ay10b, ay11,
      gx1, gy1, gy2, gy3, gy4, gy5, gy6, gy7, gy8, gy9, gy10,
      -EuclideanDomain.mod_eq_zero]
  have m1h : num_cell_neighbors cols rows ⟨1, rows - 2⟩ L1 = 1 := by
    simp [num_cell_neighbors, dirs, neighborPoint, align_point, hct2,
      Point.mk.injEq, ax1, ax2, ax3, ax4, ax5, ay1, ay2, ay3, ay4, ay5,
      ay6, ay7, ay8, ay6b, ay7b, ay8b, ay9, ay9b, ay10, ay10b, ay11,
      gx1, gy1, gy2, gy3, gy4, gy5, gy6, gy7, gy8, gy9, gy10,
      -EuclideanDomain.mod_eq_zero]
  have m11 : num_cell_neighbors cols rows ⟨1, 1⟩ L1 = 1 := by
    simp [num_cell_neighbors, dirs, neighborPoint, align_point, hct2,
      Point.mk.injEq, ax1, ax2, ax3, ax4, ax5, ay1, ay2, ay3, ay4, ay5,
      ay6, ay7, ay8, ay6b, ay7b, ay8b, ay9, ay9b, ay10, ay10b, ay11,
      gx1, gy1, gy2, gy3, gy4, gy5, gy6, gy7, gy8, gy9, gy10,
      -EuclideanDomain.mod_eq_zero]
  have q0h3 : num_cell_neighbors cols rows ⟨0, rows - 3⟩ L1 ≠ 3 := by
    simp [num_cell_neighbors, dirs, neighborPoint, align_point, hct2,
      Point.mk.injEq, ax1, ax2, ax3, ax4, ax5, ay1, ay2, ay3, ay4, ay5,
      ay6, ay7, ay8, ay6b, ay7b, ay8b, ay9, ay9b, ay10, ay10b, ay11,
      gx1, gy1, gy2, gy3, gy4, gy5, gy6, gy7, gy8, gy9, gy10,
      -EuclideanDomain.mod_eq_zero]
    split_ifs <;> norm_num
  have q1h3 : num_cell_neighbors cols rows ⟨1, rows - 3⟩ L1 ≠ 3 := by
    simp [num_cell_neighbors, dirs, neighborPoint, align_point, hct2,
      Point.mk.injEq, ax1, ax2, ax3, ax4, ax5, ay1, ay2, ay3, ay4, ay5,
      ay6, ay7, ay8, ay6b, ay7b, ay8b, ay9, ay9b, ay10, ay10b, ay11,
      gx1, gy1, gy2, gy3, gy4, gy5, gy6, gy7, gy8, gy9, gy10,
      -EuclideanDomain.mod_eq_zero]
    split_ifs <;> norm_num
  have q2h3 : num_cell_neighbors cols rows ⟨2, rows - 3⟩ L1 ≠ 3 := by
    simp [num_cell_neighbors, dirs, neighborPoint, align_point, hct2,
      Point.mk.injEq, ax1, ax2, ax3, ax4, ax5, ay1, ay2, ay3, ay4, ay5,
      ay6, ay7, ay8, ay6b, ay7b, ay8b, ay9, ay9b, ay10, ay10b, ay11,
      gx1, gy1, gy2, gy3, gy4, gy5, gy6, gy7, gy8, gy9, gy10,
      -EuclideanDomain.mod_eq_zero]
    split_ifs <;> norm_num
  have q0h2 : num_cell_neighbors cols rows ⟨0, rows - 2⟩ L1 ≠ 3 := by
    simp [num_cell_neighbors, dirs, neighborPoint, align_point, hct2,
      Point.mk.injEq, ax1, ax2, ax3, ax4, ax5, ay1, ay2, ay3, ay4, ay5,
      ay6, ay7, ay8, ay6b, ay7b, ay8b, ay9, ay9b, ay10, ay10b, ay11,
      gx1, gy1, gy2, gy3, gy4, gy5, gy6, gy7, gy8, gy9, gy10,
      -EuclideanDomain.mod_eq_zero]
  have q2h2 : num_cell_neighbors cols rows ⟨2, rows - 2⟩ L1 ≠ 3 := by
    simp [num_cell_neighbors, dirs, neighborPoint, align_point, hct2,
      Point.mk.injEq, ax1, ax2, ax3, ax4, ax5, ay1, ay2, ay3, ay4, ay5,
      ay6, ay7, ay8, ay6b, ay7b, ay8b, ay9, ay9b, ay10, ay10b, ay11,
      gx1, gy1, gy2, gy3, gy4, gy5, gy6, gy7, gy8, gy9, gy10,
      -EuclideanDomain.mod_eq_zero]
  have q01 : num_cell_neighbors cols rows ⟨0, 1⟩ L1 ≠ 3 := by
    simp [num_cell_neighbors, dirs, neighborPoint, align_point, hct2,
      Point.mk.injEq, ax1, ax2, ax3, ax4, ax5, ay1, ay2, ay3, ay4, ay5,
      ay6, ay7, ay8, ay6b, ay7b, ay8b, ay9, ay9b, ay10, ay10b, ay11,
      gx1, gy1, gy2, gy3, gy4, gy5, gy6, gy7, gy8, gy9, gy10,
      -EuclideanDomain.mod_eq_zero]
  have q21 : num_cell_neighbors cols rows ⟨2, 1⟩ L1 ≠ 3 := by
    simp [num_cell_neighbors, dirs, neighborPoint, align_point, hct2,
      Point.mk.injEq, ax1, ax2, ax3, ax4, ax5, ay1, ay2, ay3, ay4, ay5,
      ay6, ay7, ay8, ay6b, ay7b, ay8b, ay9, ay9b, ay10, ay10b, ay11,
      gx1, gy1, gy2, gy3, gy4, gy5, gy6, gy7, gy8, gy9, gy10,
      -EuclideanDomain.mod_eq_zero]
  have q02 : num_cell_neighbors cols rows ⟨0, 2⟩ L1 ≠ 3 := by
    simp [num_cell_neighbors, dirs, neighborPoint, align_point, hct2,
      Point.mk.injEq, ax1, ax2, ax3, ax4, ax5, ay1, ay2, ay3, ay4, ay5,
      ay6, ay7, ay8, ay6b, ay7b, ay8b, ay9, ay9b, ay10, ay10b, ay11,
      gx1, gy1, gy2, gy3, gy4, gy5, gy6, gy7, gy8, gy9, gy10,
      -EuclideanDomain.mod_eq_zero]
    split_ifs <;> norm_num
  have q12 : num_cell_neighbors cols rows ⟨1, 2⟩ L1 ≠ 3 := by
    simp [num_cell_neighbors, dirs, neighborPoint, align_point, hct2,
      Point.mk.injEq, ax1, ax2, ax3, ax4, ax5, ay1, ay2, ay3, ay4, ay5,
      ay6, ay7, ay8, ay6b, ay7b, ay8b, ay9, ay9b, ay10, ay10b, ay11,
      gx1, gy1, gy2, gy3, gy4, gy5, gy6, gy7, gy8, gy9, gy10,
      -EuclideanDomain.mod_eq_zero]
    split_ifs <;> norm_num
  have q22 : num_cell_neighbors cols rows ⟨2, 2⟩ L1 ≠ 3 := by
    simp [num_cell_neighbors, dirs, neighborPoint, align_point, hct2,
      Point.mk.injEq, ax1, ax2, ax3, ax4, ax5, ay1, ay2, ay3, ay4, ay5,
      ay6, ay7, ay8, ay6b, ay7b, ay8b, ay9, ay9b, ay10, ay10b, ay11,
      gx1, gy1, gy2, gy3, gy4, gy5, gy6, gy7, gy8, gy9, gy10,
      -EuclideanDomain.mod_eq_zero]
    split_ifs <;> norm_num
  exact ⟨m00, m20, m10, m1h, m11, q0h3, q1h3, q2h3, q0h2, q2h2, q01, q21, q02, q12, q22⟩

set_option maxHeartbeats 2000000 in
theorem blinker_step1_lookup_aux (cols rows : Int) (g : Nat)
    (hc : 5 ≤ cols) (hr : 5 ≤ rows) (OUT : List (Point × Cell))
    (n00 : num_cell_neighbors cols rows ⟨0, 0⟩ blinkerPop = 1)
    (n10 : num_cell_neighbors cols rows ⟨1, 0⟩ blinkerPop = 2)
    (n20 : num_cell_neighbors cols rows ⟨2, 0⟩ blinkerPop = 1)
    (n1h : num_cell_neighbors cols rows ⟨1, rows - 2⟩ blinkerPop = 3)
    (n11 : num_cell_neighbors cols rows ⟨1, 1⟩ blinkerPop = 3)
    (nmh : num_cell_neighbors cols rows ⟨cols - 2, rows - 2⟩ blinkerPop ≠ 3)
    (nm0 : num_cell_neighbors cols rows ⟨cols - 2, 0⟩ blinkerPop ≠ 3)
    (nm1 : num_cell_neighbors cols rows ⟨cols - 2, 1⟩ blinkerPop ≠ 3)
    (n0h : num_cell_neighbors cols rows ⟨0, rows - 2⟩ blinkerPop ≠ 3)
    (n01 : num_cell_neighbors cols rows ⟨0, 1⟩ blinkerPop ≠ 3)
    (n2h : num_cell_neighbors cols rows ⟨2, rows - 2⟩ blinkerPop ≠ 3)
    (n21 : num_cell_neighbors cols rows ⟨2, 1⟩ blinkerPop ≠ 3)
    (n3h : num_cell_neighbors cols rows ⟨3, rows - 2⟩ blinkerPop ≠ 3)
    (n30 : num_cell_neighbors cols rows ⟨3, 0⟩ blinkerPop ≠ 3)
    (n31 : num_cell_neighbors cols rows ⟨3, 1⟩ blinkerPop ≠ 3)
    (hchar : ∀ (p : Point) (c : Cell), dlookup OUT p = some c ↔
      ((dlookup blinkerPop p = some c ∧
        (num_cell_neighbors cols rows p blinkerPop = 2 ∨
         num_cell_neighbors cols rows p blinkerPop = 3)) ∨
       (dictContains blinkerPop p = false ∧
        nbhdP cols rows (blinkerPop.map Prod.snd) p ∧
        num_cell_neighbors cols rows p blinkerPop = 3 ∧ c = ⟨p, g + 1⟩)))
    (p : Point) (c : Cell) :
    dlookup OUT p = some c ↔
      ((p = ⟨1, rows - 2⟩ ∧ c = ⟨⟨1, rows - 2⟩, g + 1⟩) ∨
       (p = ⟨1, 0⟩ ∧ c = ⟨⟨1, 0⟩, 0⟩) ∨
       (p = ⟨1, 1⟩ ∧ c = ⟨⟨1, 1⟩, g + 1⟩)) := by
  have ax1 : ((-1 : Int)) % (cols - 1) = cols - 2 := by
    rw [emod_neg_small (-1) (cols - 1) (by omega) (by omega)]; ring
  have ax2 : ((0 : Int)) % (cols - 1) = 0 := Int.emod_eq_of_lt (by omega) (by omega)
  have ax3 : ((1 : Int)) % (cols - 1) = 1 := Int.emod_eq_of_lt (by omega) (by omega)
  have ax4 : ((2 : Int)) % (cols - 1) = 2 := Int.emod_eq_of_lt (by omega) (by omega)
  have ax5 : ((3 : Int)) % (cols - 1) = 3 := Int.emod_eq_of_lt (by omega) (by omega)
  have ay1 : ((-1 : Int)) % (rows - 1) = rows - 2 := by
    rw [emod_neg_small (-1) (rows - 1) (by omega) (by omega)]; ring
  have ay2 : ((0 : Int)) % (rows - 1) = 0 := Int.emod_eq_of_lt (by omega) (by omega)
  have ay3 : ((1 : Int)) % (rows - 1) = 1 := Int.emod_eq_of_lt (by omega) (by omega)
  have fy1 : ¬ ((rows - 2 : Int) = 0) := by omega
  rw [hchar p c]
  constructor
  · rintro (⟨hlk, hcnt⟩ | ⟨hdead, ⟨c', hcm, d, hd, hnp⟩, h3n, hcv⟩)
    · have hm := mem_of_dlookup_eq_some _ _ _ hlk
      simp only [blinkerPop, List.mem_cons, List.not_mem_nil, or_false,
        Prod.mk.injEq] at hm
      rcases hm with ⟨rfl, rfl⟩ | ⟨rfl, rfl⟩ | ⟨rfl, rfl⟩
      · rw [n00] at hcnt
        simp at hcnt
      · exact Or.inr (Or.inl ⟨rfl, rfl⟩)
      · rw [n20] at hcnt
        simp at hcnt
    · simp only [blinkerPop, List.map_cons, List.map_nil, List.mem_cons,
        List.not_mem_nil, or_false] at hcm
      simp only [dirs, List.mem_cons, List.not_mem_nil, or_false] at hd
      rcases hcm with rfl | rfl | rfl <;>
        rcases hd with rfl | rfl | rfl | rfl | rfl | rfl | rfl | rfl <;>
        (simp only [neighborPoint, align_point] at hnp) <;>
        (try norm_num at hnp) <;>
        (try simp only [ax1, ax2, ax3, ax4, ax5, ay1, ay2, ay3] at hnp) <;>
        subst hnp <;>
        (first
          | exact Or.inl ⟨rfl, hcv⟩
          | exact Or.inr (Or.inr ⟨rfl, hcv⟩)
          | exact absurd h3n nmh
          | exact absurd h3n nm0
          | exact absurd h3n nm1
          | exact absurd h3n n0h
          | exact absurd h3n n01
          | exact absurd h3n n2h
          | exact absurd h3n n21
          | exact absurd h3n n3h
          | exact absurd h3n n30
          | exact absurd h3n n31
          | simp [blinkerPop, dictContains, dlookup] at hdead)
  · rintro (⟨rfl, rfl⟩ | ⟨rfl, rfl⟩ | ⟨rfl, rfl⟩)
    · refine Or.inr ⟨?_, ⟨⟨⟨0,0⟩, 0⟩, by simp [blinkerPop], (1, -1), by decide, ?_⟩,
        n1h, rfl⟩
      · simp [blinkerPop, dictContains, dlookup, Point.mk.injEq, fy1]
      · simp [neighborPoint, align_point, Point.mk.injEq, ax3, ay1,
          -EuclideanDomain.mod_eq_zero]
    · exact Or.inl ⟨by decide, Or.inl n10⟩
    · refine Or.inr ⟨?_, ⟨⟨⟨0,0⟩, 0⟩, by simp [blinkerPop], (1, 1), by decide, ?_⟩,
        n11, rfl⟩
      · simp [blinkerPop, dictContains, dlookup, Point.mk.injEq]
      · simp [neighborPoint, align_point, Point.mk.injEq, ax3, ay3,
          -EuclideanDomain.mod_eq_zero]

set_option maxHeartbeats 2000000 in
theorem blinker_step2_mem_aux (cols rows : Int) (g2 : Nat)
    (hc : 5 ≤ cols) (hr : 5 ≤ rows) (L1 OUT2 : List (Point × Cell))
    (hnd2 : (L1.map Prod.fst).Nodup)
    (hL1 : ∀ (p : Point) (c : Cell), dlookup L1 p = some c ↔
      ((p = ⟨1, rows - 2⟩ ∧ c = ⟨⟨1, rows - 2⟩, g2⟩) ∨
       (p = ⟨1, 0⟩ ∧ c = ⟨⟨1, 0⟩, 0⟩) ∨
       (p = ⟨1, 1⟩ ∧ c = ⟨⟨1, 1⟩, g2⟩)))
    (hct2 : ∀ x : Point, dictContains L1 x =
      decide (x = ⟨1, rows - 2⟩ ∨ x = ⟨1, 0⟩ ∨ x = ⟨1, 1⟩))
    (m00 : num_cell_neighbors cols rows ⟨0, 0⟩ L1 = 3)
    (m20 : num_cell_neighbors cols rows ⟨2, 0⟩ L1 = 3)
    (m10 : num_cell_neighbors cols rows ⟨1, 0⟩ L1 = 2)
    (m1h : num_cell_neighbors cols rows ⟨1, rows - 2⟩ L1 = 1)
    (m11 : num_cell_neighbors cols rows ⟨1, 1⟩ L1 = 1)
    (q0h3 : num_cell_neighbors cols rows ⟨0, rows - 3⟩ L1 ≠ 3)
    (q1h3 : num_cell_neighbors cols rows ⟨1, rows - 3⟩ L1 ≠ 3)
    (q2h3 : num_cell_neighbors cols rows ⟨2, rows - 3⟩ L1 ≠ 3)
    (q0h2 : num_cell_neighbors cols rows ⟨0, rows - 2⟩ L1 ≠ 3)
    (q2h2 : num_cell_neighbors cols rows ⟨2, rows - 2⟩ L1 ≠ 3)
    (q01 : num_cell_neighbors cols rows ⟨0, 1⟩ L1 ≠ 3)
    (q21 : num_cell_neighbors cols rows ⟨2, 1⟩ L1 ≠ 3)
    (q02 : num_cell_neighbors cols rows ⟨0, 2⟩ L1 ≠ 3)
    (q12 : num_cell_neighbors cols rows ⟨1, 2⟩ L1 ≠ 3)
    (q22 : num_cell_neighbors cols rows ⟨2, 2⟩ L1 ≠ 3)
    (hchar2 : ∀ (p : Point) (c : Cell), dlookup OUT2 p = some c ↔
      ((dlookup L1 p = some c ∧
        (num_cell_neighbors cols rows p L1 = 2 ∨
         num_cell_neighbors cols rows p L1 = 3)) ∨
       (dictContains L1 p = false ∧ nbhdP cols rows (L1.map Prod.snd) p ∧
        num_cell_neighbors cols rows p L1 = 3 ∧ c = ⟨p, g2 + 1⟩)))
    (p : Point) :
    dictContains OUT2 p = true ↔ (p = ⟨0, 0⟩ ∨ p = ⟨1, 0⟩ ∨ p = ⟨2, 0⟩) := by
  have ax2 : ((0 : Int)) % (cols - 1) = 0 := Int.emod_eq_of_lt (by omega) (by omega)
  have ax3 : ((1 : Int)) % (cols - 1) = 1 := Int.emod_eq_of_lt (by omega) (by omega)
  have ax4 : ((2 : Int)) % (cols - 1) = 2 := Int.emod_eq_of_lt (by omega) (by omega)
  have ay1 : ((-1 : Int)) % (rows - 1) = rows - 2 := by
    rw [emod_neg_small (-1) (rows - 1) (by omega) (by omega)]; ring
  have ay2 : ((0 : Int)) % (rows - 1) = 0 := Int.emod_eq_of_lt (by omega) (by omega)
  have ay3 : ((1 : Int)) % (rows - 1) = 1 := Int.emod_eq_of_lt (by omega) (by omega)
  have ay4 : ((2 : Int)) % (rows - 1) = 2 := Int.emod_eq_of_lt (by omega) (by omega)
  have ay6 : (rows - 2 + -1) % (rows - 1) = rows - 3 := by
    have e : rows - 2 + -1 = rows - 3 := by ring
    rw [e]; exact Int.emod_eq_of_lt (by omega) (by omega)
  have ay7 : (rows - 2 + 0) % (rows - 1) = rows - 2 := by
    have e : rows - 2 + 0 = rows - 2 := by ring
    rw [e]; exact Int.emod_eq_of_lt (by omega) (by omega)
  have ay8 : (rows - 2 + 1) % (rows - 1) = 0 := by
    have e : rows - 2 + 1 = rows - 1 := by ring
    rw [e]; exact Int.emod_self
  have ay6b : (rows - 2 - 1) % (rows - 1) = rows - 3 := by
    have e : rows - 2 - 1 = rows - 3 := by ring
    rw [e]; exact Int.emod_eq_of_lt (by omega) (by omega)
  have ay7b : (rows - 2) % (rows - 1) = rows - 2 :=
    Int.emod_eq_of_lt (by omega) (by omega)
  have ay8b : (rows - 1) % (rows - 1) = 0 := Int.emod_self
  have hvals2 : (⟨⟨1, 0⟩, 0⟩ : Cell) ∈ L1.map Prod.snd := by
    have hlk := (hL1 ⟨1, 0⟩ ⟨⟨1, 0⟩, 0⟩).mpr (Or.inr (Or.inl ⟨rfl, rfl⟩))
    exact List.mem_map_of_mem Prod.snd (mem_of_dlookup_eq_some _ _ _ hlk)
  have hvals : ∀ c' : Cell, c' ∈ L1.map Prod.snd →
      (c' = ⟨⟨1, rows - 2⟩, g2⟩ ∨ c' = ⟨⟨1, 0⟩, 0⟩ ∨ c' = ⟨⟨1, 1⟩, g2⟩) := by
    intro c' hcm
    rcases List.mem_map.mp hcm with ⟨kv, hkvm, he⟩
    have hkv2 : (kv.1, kv.2) ∈ L1 := by
      rw [Prod.mk.eta]
      exact hkvm
    have hlk : dlookup L1 kv.1 = some kv.2 :=
      dlookup_eq_some_of_mem _ _ _ hnd2 hkv2
    rcases (hL1 kv.1 kv.2).mp hlk with ⟨-, h2⟩ | ⟨-, h2⟩ | ⟨-, h2⟩
    · exact Or.inl (by rw [← he, h2])
    · exact Or.inr (Or.inl (by rw [← he, h2]))
    · exact Or.inr (Or.inr (by rw [← he, h2]))
  constructor
  · intro hout
    rcases dictContains_exists _ _ hout with ⟨c, hcl⟩
    rcases (hchar2 p c).mp hcl with ⟨hlk, hcnt⟩ | ⟨hdead, ⟨c', hcm, d, hd, hnp⟩, h3n, -⟩
    · rcases (hL1 p c).mp hlk with ⟨rfl, -⟩ | ⟨rfl, -⟩ | ⟨rfl, -⟩
      · rw [m1h] at hcnt
        simp at hcnt
      · exact Or.inr (Or.inl rfl)
      · rw [m11] at hcnt
        simp at hcnt
    · have hcm' := hvals c' hcm
      simp only [dirs, List.mem_cons, List.not_mem_nil, or_false] at hd
      rcases hcm' with rfl | rfl | rfl <;>
        rcases hd with rfl | rfl | rfl | rfl | rfl | rfl | rfl | rfl <;>
        (simp only [neighborPoint, align_point] at hnp) <;>
        (try norm_num at hnp) <;>
        (try simp only [ax2, ax3, ax4, ay1, ay2, ay3, ay4, ay6, ay7, ay8,
          ay6b, ay7b, ay8b] at hnp) <;>
        subst hnp <;>
        (first
          | exact Or.inl rfl
          | exact Or.inr (Or.inr rfl)
          | exact absurd h3n q0h3
          | exact absurd h3n q1h3
          | exact absurd h3n q2h3
          | exact absurd h3n q0h2
          | exact absurd h3n q2h2
          | exact absurd h3n q01
          | exact absurd h3n q21
          | exact absurd h3n q02
          | exact absurd h3n q12
          | exact absurd h3n q22
          | (rw [hct2] at hdead; simp at hdead))
  · rintro (rfl | rfl | rfl)
    · have hdead : dictContains L1 ⟨0, 0⟩ = false := by
        rw [hct2]
        simp [Point.mk.injEq]
      have hnb : nbhdP cols rows (L1.map Prod.snd) ⟨0, 0⟩ :=
        ⟨⟨⟨1, 0⟩, 0⟩, hvals2, (-1, 0), by decide,
          by simp [neighborPoint, align_point, Point.mk.injEq, ax2, ay2,
            -EuclideanDomain.mod_eq_zero]⟩
      have hsome := (hchar2 _ ⟨⟨0, 0⟩, g2 + 1⟩).mpr (Or.inr ⟨hdead, hnb, m00, rfl⟩)
      simp [dictContains, hsome]
    · have hlk := (hL1 ⟨1, 0⟩ ⟨⟨1, 0⟩, 0⟩).mpr (Or.inr (Or.inl ⟨rfl, rfl⟩))
      have hsome := (hchar2 _ ⟨⟨1, 0⟩, 0⟩).mpr (Or.inl ⟨hlk, Or.inl m10⟩)
      simp [dictContains, hsome]
    · have hdead : dictContains L1 ⟨2, 0⟩ = false := by
        rw [hct2]
        simp [Point.mk.injEq]
      have hnb : nbhdP cols rows (L1.map Prod.snd) ⟨2, 0⟩ :=
        ⟨⟨⟨1, 0⟩, 0⟩, hvals2, (1, 0), by decide,
          by simp [neighborPoint, align_point, Point.mk.injEq, ax4, ay2,
            -EuclideanDomain.mod_eq_zero]⟩
      have hsome := (hchar2 _ ⟨⟨2, 0⟩, g2 + 1⟩).mpr (Or.inr ⟨hdead, hnb, m20, rfl⟩)
      simp [dictContains, hsome]

/-- Claim C6: starting from the horizontal blinker (0,0),(1,0),(2,0) on a
grid with cols, rows >= 5, one application of `compute_life` yields
exactly the vertical triple at the normalized (align_point) images of
(1,-1),(1,0),(1,1), and a second application returns the population to
exactly the original three horizontal positions. -/
theorem claim_C6_blinker (cols rows : Int) (g : Nat)
    (hc : 5 ≤ cols) (hr : 5 ≤ rows) :
    (∀ p : Point,
      dictContains (compute_life cols rows blinkerPop g) p = true ↔
        (p = align_point cols rows ⟨1, -1⟩ ∨ p = align_point cols rows ⟨1, 0⟩ ∨
         p = align_point cols rows ⟨1, 1⟩)) ∧
    (∀ p : Point,
      dictContains
        (compute_life cols rows (compute_life cols rows blinkerPop g) (g + 1))
          p = true ↔
        (p = ⟨0, 0⟩ ∨ p = ⟨1, 0⟩ ∨ p = ⟨2, 0⟩)) := by
  have ax3 : ((1 : Int)) % (cols - 1) = 1 := Int.emod_eq_of_lt (by omega) (by omega)
  have ay1 : ((-1 : Int)) % (rows - 1) = rows - 2 := by
    rw [emod_neg_small (-1) (rows - 1) (by omega) (by omega)]; ring
  have ay2 : ((0 : Int)) % (rows - 1) = 0 := Int.emod_eq_of_lt (by omega) (by omega)
  have ay3 : ((1 : Int)) % (rows - 1) = 1 := Int.emod_eq_of_lt (by omega) (by omega)
  have e1 : align_point cols rows ⟨1, -1⟩ = ⟨1, rows - 2⟩ := by
    simp [align_point, Point.mk.injEq, ax3, ay1, -EuclideanDomain.mod_eq_zero]
  have e2 : align_point cols rows ⟨1, 0⟩ = ⟨1, 0⟩ := by
    simp [align_point, Point.mk.injEq, ax3, ay2, -EuclideanDomain.mod_eq_zero]
  have e3 : align_point cols rows ⟨1, 1⟩ = ⟨1, 1⟩ := by
    simp [align_point, Point.mk.injEq, ax3, ay3, -EuclideanDomain.mod_eq_zero]
  have hkv1 : ∀ kv ∈ blinkerPop, (kv.2).pos = kv.1 := by decide
  have hnd1 : (blinkerPop.map Prod.fst).Nodup := by decide
  have hchar1 := compute_life_lookup cols rows blinkerPop g hkv1 hnd1
  obtain ⟨n00, n10, n20, n1h, n11, nmh, nm0, nm1, n0h, n01, n2h, n21, n3h,
    n30, n31⟩ := blinker_ncn_step1 cols rows hc hr
  have hL1 : ∀ (p : Point) (c : Cell),
      dlookup (compute_life cols rows blinkerPop g) p = some c ↔
        ((p = ⟨1, rows - 2⟩ ∧ c = ⟨⟨1, rows - 2⟩, g + 1⟩) ∨
         (p = ⟨1, 0⟩ ∧ c = ⟨⟨1, 0⟩, 0⟩) ∨
         (p = ⟨1, 1⟩ ∧ c = ⟨⟨1, 1⟩, g + 1⟩)) :=
    blinker_step1_lookup_aux cols rows g hc hr _ n00 n10 n20 n1h n11 nmh nm0
      nm1 n0h n01 n2h n21 n3h n30 n31 hchar1
  have conj1 : ∀ p : Point,
      dictContains (compute_life cols rows blinkerPop g) p = true ↔
        (p = ⟨1, rows - 2⟩ ∨ p = ⟨1, 0⟩ ∨ p = ⟨1, 1⟩) := by
    intro p
    constructor
    · intro h
      rcases dictContains_exists _ _ h with ⟨c, hcl⟩
      rcases (hL1 p c).mp hcl with ⟨rfl, -⟩ | ⟨rfl, -⟩ | ⟨rfl, -⟩
      · exact Or.inl rfl
      · exact Or.inr (Or.inl rfl)
      · exact Or.inr (Or.inr rfl)
    · rintro (rfl | rfl | rfl)
      · have hx := (hL1 _ ⟨⟨1, rows - 2⟩, g + 1⟩).mpr (Or.inl ⟨rfl, rfl⟩)
        simp [dictContains, hx]
      · have hx := (hL1 _ ⟨⟨1, 0⟩, 0⟩).mpr (Or.inr (Or.inl ⟨rfl, rfl⟩))
        simp [dictContains, hx]
      · have hx := (hL1 _ ⟨⟨1, 1⟩, g + 1⟩).mpr (Or.inr (Or.inr ⟨rfl, rfl⟩))
        simp [dictContains, hx]
  have hct2 : ∀ x : Point,
      dictContains (compute_life cols rows blinkerPop g) x =
        decide (x = ⟨1, rows - 2⟩ ∨ x = ⟨1, 0⟩ ∨ x = ⟨1, 1⟩) := by
    intro x
    by_cases hx : (x = (⟨1, rows - 2⟩ : Point) ∨ x = ⟨1, 0⟩ ∨ x = ⟨1, 1⟩)
    · simp [(conj1 x).mpr hx, hx]
    · have h0 : dictContains (compute_life cols rows blinkerPop g) x = false := by
        rw [bool_eq_false_iff_not]
        intro hcc
        exact hx ((conj1 x).mp hcc)
      simp [h0, hx]
  have hwf1 := compute_life_wf cols rows blinkerPop g
  have hchar2 := compute_life_lookup cols rows
    (compute_life cols rows blinkerPop g) (g + 1) hwf1.1 hwf1.2
  obtain ⟨m00, m20, m10, m1h, m11, q0h3, q1h3, q2h3, q0h2, q2h2, q01, q21,
    q02, q12, q22⟩ := blinker_ncn_step2 cols rows hc hr _ hct2
  have conj2 := blinker_step2_mem_aux cols rows (g + 1) hc hr _ _ hwf1.2 hL1
    hct2 m00 m20 m10 m1h m11 q0h3 q1h3 q2h3 q0h2 q2h2 q01 q21 q02 q12 q22
    hchar2
  refine ⟨?_, conj2⟩
  intro p
  rw [e1, e2, e3]
  exact conj1 p

/-- Witness for claim C6: the blinker oscillation on the concrete 5x5
grid at generation 0. -/
theorem claim_C6_blinker_witness :
    (∀ p : Point,
      dictContains (compute_life 5 5 blinkerPop 0) p = true ↔
        (p = align_point 5 5 ⟨1, -1⟩ ∨ p = align_point 5 5 ⟨1, 0⟩ ∨
         p = align_point 5 5 ⟨1, 1⟩)) ∧
    (∀ p : Point,
      dictContains
        (compute_life 5 5 (compute_life 5 5 blinkerPop 0) (0 + 1)) p = true ↔
        (p = ⟨0, 0⟩ ∨ p = ⟨1, 0⟩ ∨ p = ⟨2, 0⟩)) :=
  claim_C6_blinker 5 5 0 (by decide) (by decide)
